import Mathlib

/-!
Verification development for the refinery s3 submodule
(`controller.py`, `enums.py`, `connections/minio.py`, `connections/aws.py`).

The object store is embedded shallowly: a state is a list of buckets, each a
list of named string objects.  Provider-SDK primitives (the `Minio` client
calls) are modelled as `client.*` functions with standard S3 semantics, and
every repository function is translated line by line on top of them.  Fallible
Python code (raised exceptions) is modelled with `Except Err`.
-/

set_option maxHeartbeats 1000000

/-- A raised Python exception: either a provider `S3Error` (identified by its
error code) or a `ValueError` with its message. -/
inductive Err where
  | s3Error (code : String)
  | valueError (msg : String)
deriving Repr, DecidableEq

/-- An s3 object: a name (key) and its string payload. -/
structure S3Object where
  name : String
  data : String
deriving Repr, DecidableEq

/-- An s3 bucket: a name and the objects it holds. -/
structure S3Bucket where
  name : String
  objs : List S3Object
deriving Repr, DecidableEq

/-- The whole object store. -/
structure S3State where
  buckets : List S3Bucket
deriving Repr, DecidableEq

/-- The local (container) file system seen by `os.path.exists` /
`fput_object`: a partial map from path to file contents. -/
def LocalFS : Type := String → Option String

/-- The environment variables the code reads (`os.getenv`). -/
structure Env where
  s3_target : Option String
  s3_aws_region : Option String
deriving Repr, DecidableEq

/-- `enums.py`: `ConnectionTarget`. -/
inductive ConnectionTarget where
  | AWS
  | MINIO
  | UNKNOWN
deriving Repr, DecidableEq

def S3State.findBucket (st : S3State) (bucket : String) : Option S3Bucket :=
  st.buckets.find? (fun bk => bk.name == bucket)

def S3Bucket.findObj (bk : S3Bucket) (object_name : String) : Option S3Object :=
  bk.objs.find? (fun o => o.name == object_name)

/-- The payload stored at `(bucket, object_name)`, if any. -/
def lookupObj (st : S3State) (bucket object_name : String) : Option String :=
  (st.findBucket bucket).bind (fun bk => (bk.findObj object_name).map S3Object.data)

/-- The object list of the named bucket (empty if the bucket is absent). -/
def objsOf (st : S3State) (bucket : String) : List S3Object :=
  ((st.findBucket bucket).map S3Bucket.objs).getD []

/-- Rewrite the object list of every bucket with the given name. -/
def S3State.updateBucket (st : S3State) (bucket : String)
    (f : List S3Object → List S3Object) : S3State :=
  ⟨st.buckets.map (fun bk => if bk.name == bucket then ⟨bk.name, f bk.objs⟩ else bk)⟩

/-- Well-formedness: bucket names are unique keys, and so are object names
within each bucket (the provider exposes them as dictionaries). -/
def S3State.WF (st : S3State) : Prop :=
  (st.buckets.map S3Bucket.name).Nodup ∧
    ∀ bk ∈ st.buckets, (bk.objs.map S3Object.name).Nodup

instance (st : S3State) : Decidable st.WF := by
  unfold S3State.WF; infer_instance

/-! ## Provider client primitives (the `Minio` SDK calls) -/

def client.bucket_exists (st : S3State) (bucket : String) : Bool :=
  (st.findBucket bucket).isSome

def client.make_bucket (st : S3State) (bucket : String) : Except Err S3State :=
  if client.bucket_exists st bucket then .error (.s3Error "BucketAlreadyOwnedByYou")
  else .ok ⟨st.buckets ++ [⟨bucket, []⟩]⟩

def client.remove_bucket (st : S3State) (bucket : String) : Except Err S3State :=
  match st.findBucket bucket with
  | none => .error (.s3Error "NoSuchBucket")
  | some bk =>
    if bk.objs.isEmpty then .ok ⟨st.buckets.filter (fun x => !(x.name == bucket))⟩
    else .error (.s3Error "BucketNotEmpty")

def client.put_object (st : S3State) (bucket object_name data : String) :
    Except Err S3State :=
  if client.bucket_exists st bucket then
    .ok (st.updateBucket bucket
      (fun objs => objs.filter (fun o => !(o.name == object_name)) ++ [⟨object_name, data⟩]))
  else .error (.s3Error "NoSuchBucket")

/-- `remove_object`: S3 delete succeeds whether or not the key is present. -/
def client.remove_object (st : S3State) (bucket object_name : String) :
    Except Err S3State :=
  if client.bucket_exists st bucket then
    .ok (st.updateBucket bucket (fun objs => objs.filter (fun o => !(o.name == object_name))))
  else .error (.s3Error "NoSuchBucket")

/-- `stat_object` is a HEAD request; on a 404 the minio SDK cannot read an
error body and reports code `NoSuchKey` whenever an object name was given,
whether the key or its bucket is what is missing. -/
def client.stat_object (st : S3State) (bucket object_name : String) :
    Except Err Unit :=
  match lookupObj st bucket object_name with
  | some _ => .ok ()
  | none => .error (.s3Error "NoSuchKey")

def client.get_object (st : S3State) (bucket object_name : String) :
    Except Err String :=
  match st.findBucket bucket with
  | none => .error (.s3Error "NoSuchBucket")
  | some bk =>
    match bk.findObj object_name with
    | some o => .ok o.data
    | none => .error (.s3Error "NoSuchKey")

def client.copy_object (st : S3State)
    (target_bucket target_object source_bucket source_object : String) :
    Except Err S3State :=
  match lookupObj st source_bucket source_object with
  | none => .error (.s3Error "NoSuchKey")
  | some d => client.put_object st target_bucket target_object d

/-- `fput_object` reads the local file and stores it as the object. -/
def client.fput_object (st : S3State) (fs : LocalFS)
    (bucket object_name file_path : String) : Except Err S3State :=
  match fs file_path with
  | none => .error (.valueError "file not found")
  | some contents => client.put_object st bucket object_name contents

/-- `list_objects(bucket, prefix=.., recursive=True)`: the object names,
filtered by the optional name prefix. -/
def client.list_objects (st : S3State) (bucket : String) (pfx : Option String) :
    Except Err (List String) :=
  match st.findBucket bucket with
  | none => .error (.s3Error "NoSuchBucket")
  | some bk =>
    .ok ((match pfx with
      | none => bk.objs
      | some p => bk.objs.filter (fun o => o.name.startsWith p)).map S3Object.name)

def client.list_buckets (st : S3State) : List String :=
  st.buckets.map S3Bucket.name

/-! ## `connections/minio.py` -/

def minio.bucket_exists (st : S3State) (bucket : String) : Bool :=
  client.bucket_exists st bucket

/-- `create_bucket` also registers a webhook notification config; that has no
effect on the object-store state modelled here. -/
def minio.create_bucket (st : S3State) (bucket : String) :
    Except Err (Bool × S3State) := do
  let st ← client.make_bucket st bucket
  pure (true, st)

def minio.get_object (st : S3State) (bucket object_name : String) :
    Except Err String :=
  if !minio.bucket_exists st bucket then .ok ""
  else client.get_object st bucket object_name

/-- `object_exists` probes with `stat_object`; a caught error whose text does
not carry `code: NoSuchKey` is re-raised (here errors carry the code field
the message is built from). -/
def minio.object_exists (st : S3State) (bucket object_name : String) :
    Except Err Bool :=
  match client.stat_object st bucket object_name with
  | .ok _ => .ok true
  | .error e => if e == .s3Error "NoSuchKey" then .ok false else .error e

def minio.delete_object (st : S3State) (bucket object_name : String) :
    Except Err (Bool × S3State) := do
  let ex ← minio.object_exists st bucket object_name
  if !ex then pure (false, st)
  else do
    let st ← client.remove_object st bucket object_name
    pure (true, st)

/-- The `ValueError` message raised on an upload conflict. -/
def conflictMsg : String :=
  "Object name in bucket already taken -- if you want to overwrite use force = True"

def minio.upload_object (st : S3State) (fs : LocalFS)
    (bucket object_name file_path : String) (force : Bool) :
    Except Err (Bool × S3State) := do
  if !minio.bucket_exists st bucket then pure (false, st)
  else do
    let ex ← minio.object_exists st bucket object_name
    let st ←
      if ex then
        if force then do
          let r ← minio.delete_object st bucket object_name
          pure r.2
        else .error (.valueError conflictMsg)
      else pure st
    if (fs file_path).isNone then pure (false, st)
    else do
      let st ← client.fput_object st fs bucket object_name file_path
      pure (true, st)

def minio.copy_object (st : S3State)
    (source_bucket source_object target_bucket target_object : String) :
    Except Err (Bool × S3State) := do
  let st ← client.copy_object st target_bucket target_object source_bucket source_object
  pure (true, st)

def minio.get_bucket_objects (st : S3State) (bucket : String) (pfx : Option String) :
    Except Err (List String) :=
  client.list_objects st bucket pfx

def minio.get_all_buckets (st : S3State) : List String :=
  client.list_buckets st

def minio.remove_bucket (st : S3State) (bucket : String) :
    Except Err (Bool × S3State) := do
  let st ← client.remove_bucket st bucket
  pure (true, st)

/-! ## `connections/aws.py`

The object-CRUD functions are code-identical to the minio variant; the
credential functions and `create_bucket` differ. -/

def aws.bucket_exists (st : S3State) (bucket : String) : Bool :=
  client.bucket_exists st bucket

/-- `create_bucket` on aws requires the region env var (`not region` in
Python is also true for the empty string); the notification config block is
commented out in the source. -/
def aws.create_bucket (env : Env) (st : S3State) (bucket : String) :
    Except Err (Bool × S3State) := do
  if env.s3_aws_region.getD "" == "" then
    .error (.valueError "target region is not set for bucket creation on aws")
  else do
    let st ← client.make_bucket st bucket
    pure (true, st)

def aws.get_object (st : S3State) (bucket object_name : String) :
    Except Err String :=
  if !aws.bucket_exists st bucket then .ok ""
  else client.get_object st bucket object_name

def aws.object_exists (st : S3State) (bucket object_name : String) :
    Except Err Bool :=
  match client.stat_object st bucket object_name with
  | .ok _ => .ok true
  | .error e => if e == .s3Error "NoSuchKey" then .ok false else .error e

def aws.delete_object (st : S3State) (bucket object_name : String) :
    Except Err (Bool × S3State) := do
  let ex ← aws.object_exists st bucket object_name
  if !ex then pure (false, st)
  else do
    let st ← client.remove_object st bucket object_name
    pure (true, st)

def aws.upload_object (st : S3State) (fs : LocalFS)
    (bucket object_name file_path : String) (force : Bool) :
    Except Err (Bool × S3State) := do
  if !aws.bucket_exists st bucket then pure (false, st)
  else do
    let ex ← aws.object_exists st bucket object_name
    let st ←
      if ex then
        if force then do
          let r ← aws.delete_object st bucket object_name
          pure r.2
        else .error (.valueError conflictMsg)
      else pure st
    if (fs file_path).isNone then pure (false, st)
    else do
      let st ← client.fput_object st fs bucket object_name file_path
      pure (true, st)

def aws.copy_object (st : S3State)
    (source_bucket source_object target_bucket target_object : String) :
    Except Err (Bool × S3State) := do
  let st ← client.copy_object st target_bucket target_object source_bucket source_object
  pure (true, st)

def aws.get_bucket_objects (st : S3State) (bucket : String) (pfx : Option String) :
    Except Err (List String) :=
  client.list_objects st bucket pfx

def aws.get_all_buckets (st : S3State) : List String :=
  client.list_buckets st

def aws.remove_bucket (st : S3State) (bucket : String) :
    Except Err (Bool × S3State) := do
  let st ← client.remove_bucket st bucket
  pure (true, st)

/-! ## Scoped-credential policies

`get_upload_credentials_and_id` / `get_download_credentials` build an IAM
policy document and pass it to `sts.assume_role`; the temporary credentials
in the response are opaque SDK output, so what the embedding keeps is the
policy document that scopes them, plus the state effect (bucket creation). -/

structure PolicyStatement where
  sid : Option String
  effect : String
  actions : List String
  resources : List String
deriving Repr, DecidableEq

structure Policy where
  version : Option String
  statements : List PolicyStatement
deriving Repr, DecidableEq

/-- `f"arn:aws:s3:::{bucket}"` -/
def bucketArn (bucket : String) : String := "arn:aws:s3:::" ++ bucket

/-- `f"arn:aws:s3:::{bucket}/*"` -/
def bucketWildcardArn (bucket : String) : String := "arn:aws:s3:::" ++ bucket ++ "/*"

/-- `f"arn:aws:s3:::{bucket}/{object}"` -/
def objectArn (bucket object : String) : String :=
  "arn:aws:s3:::" ++ bucket ++ "/" ++ object

/-- minio variant: a single `PutObj` statement; the source writes the
resource as a bare string, modelled as its singleton list. -/
def minio.get_upload_credentials_and_id (st : S3State) (target_bucket : String) :
    Except Err (Policy × S3State) := do
  let st ←
    if !minio.bucket_exists st target_bucket then do
      let r ← minio.create_bucket st target_bucket
      pure r.2
    else pure st
  pure ({ version := some "2012-10-17",
          statements := [
            { sid := some "PutObj", effect := "Allow",
              actions := ["s3:PutObject"],
              resources := [bucketWildcardArn target_bucket] }] }, st)

def aws.get_upload_credentials_and_id (env : Env) (st : S3State)
    (target_bucket : String) : Except Err (Policy × S3State) := do
  let st ←
    if !aws.bucket_exists st target_bucket then do
      let r ← aws.create_bucket env st target_bucket
      pure r.2
    else pure st
  pure ({ version := some "2012-10-17",
          statements := [
            { sid := some "PutObj", effect := "Allow",
              actions := ["s3:AbortMultipartUpload", "s3:DeleteObject",
                          "s3:ListMultipartUploadParts", "s3:PutObject", "s3:GetObject"],
              resources := [bucketWildcardArn target_bucket] },
            { sid := none, effect := "Allow",
              actions := ["s3:GetBucketLocation", "s3:ListBucket",
                          "s3:ListBucketMultipartUploads"],
              resources := [bucketArn target_bucket] }] }, st)

/-- minio variant: read-only (`s3:GetObject`) on the single object. -/
def minio.get_download_credentials (st : S3State) (bucket object : String) :
    Except Err (Policy × S3State) := do
  let st ←
    if !minio.bucket_exists st bucket then do
      let r ← minio.create_bucket st bucket
      pure r.2
    else pure st
  pure ({ version := some "2012-10-17",
          statements := [
            { sid := some "GetObj", effect := "Allow",
              actions := ["s3:GetObject"],
              resources := [objectArn bucket object] }] }, st)

/-- aws variant: read-write actions on the whole bucket (the source policy
dict has no `Version` key; one `ListBucket` statement is commented out). -/
def aws.get_download_credentials (env : Env) (st : S3State) (bucket object : String) :
    Except Err (Policy × S3State) := do
  let st ←
    if !aws.bucket_exists st bucket then do
      let r ← aws.create_bucket env st bucket
      pure r.2
    else pure st
  pure ({ version := none,
          statements := [
            { sid := some "AllowUserToReadWriteObjectInFolder", effect := "Allow",
              actions := ["s3:GetObject", "s3:PutObject", "s3:DeleteObject",
                          "s3:ListMultipartUploadParts", "s3:AbortMultipartUpload"],
              resources := [bucketArn bucket, bucketWildcardArn bucket] },
            { sid := some "AllowGetBucketLocation", effect := "Allow",
              actions := ["s3:GetBucketLocation"],
              resources := [bucketArn bucket] },
            { sid := some "AllowListBucketUploads", effect := "Allow",
              actions := ["s3:ListBucketMultipartUploads"],
              resources := [bucketArn bucket] }] }, st)

/-! ## `controller.py` -/

def ARCHIVE_BUCKET : String := "archive"

/-- `get_current_target`: the literal marker `"AWS"` selects the cloud
backend, anything else (including an unset variable) the self-hosted one. -/
def controller.get_current_target (env : Env) : ConnectionTarget :=
  if env.s3_target == some "AWS" then ConnectionTarget.AWS
  else ConnectionTarget.MINIO

/-- The `^[0-9a-f]` character class of the uuid regex. -/
def isLowerHexDigit (c : Char) : Bool :=
  c.isDigit || ('a' ≤ c && c ≤ 'f')

/-- A `[0-9a-f]\x7blen\x7d` block. -/
def hexBlock (cs : List Char) (len : Nat) : Bool :=
  cs.length == len && cs.all isLowerHexDigit

/-- Split a character list on `-` (the semantics of `splitOn "-"`,
structurally recursive so that it evaluates in the kernel). -/
def splitDash (cs : List Char) : List (List Char) :=
  match cs with
  | [] => [[]]
  | c :: rest =>
    if c = '-' then [] :: splitDash rest
    else
      match splitDash rest with
      | [] => [[c]]
      | h :: t => (c :: h) :: t

/-- One anchored match of
`^[0-9a-f]\x7b8\x7d-[0-9a-f]\x7b4\x7d-[0-9a-f]\x7b4\x7d-[0-9a-f]\x7b4\x7d-[0-9a-f]\x7b12\x7d$`
against a whole string: hex blocks cannot contain `-`, so the string matches
iff it splits on `-` into exactly five hex blocks of those widths. -/
def uuidChars (cs : List Char) : Bool :=
  match splitDash cs with
  | [a, b, c, d, e] =>
    hexBlock a 8 && hexBlock b 4 && hexBlock c 4 && hexBlock d 4 && hexBlock e 12
  | _ => false

/-- `__is_uuid`: Python's `$` also matches just before one trailing newline,
so `re.match` also accepts a matching name followed by a single `"\n"`. -/
def controller.is_uuid (name : String) : Bool :=
  uuidChars name.toList ||
    (name.toList.getLast? == some (Char.ofNat 10) && uuidChars name.toList.dropLast)

def controller.bucket_exists (env : Env) (st : S3State) (bucket : String) : Bool :=
  match controller.get_current_target env with
  | ConnectionTarget.MINIO => minio.bucket_exists st bucket
  | ConnectionTarget.AWS => aws.bucket_exists st bucket
  | ConnectionTarget.UNKNOWN => false

def controller.create_bucket (env : Env) (st : S3State) (bucket : String) :
    Except Err (Bool × S3State) :=
  match controller.get_current_target env with
  | ConnectionTarget.MINIO => minio.create_bucket st bucket
  | ConnectionTarget.AWS => aws.create_bucket env st bucket
  | ConnectionTarget.UNKNOWN => .ok (false, st)

def controller.object_exists (env : Env) (st : S3State) (bucket object_name : String) :
    Except Err Bool :=
  match controller.get_current_target env with
  | ConnectionTarget.MINIO => minio.object_exists st bucket object_name
  | ConnectionTarget.AWS => aws.object_exists st bucket object_name
  | ConnectionTarget.UNKNOWN => .ok false

def controller.delete_object (env : Env) (st : S3State) (bucket object_name : String) :
    Except Err (Bool × S3State) :=
  match controller.get_current_target env with
  | ConnectionTarget.MINIO => minio.delete_object st bucket object_name
  | ConnectionTarget.AWS => aws.delete_object st bucket object_name
  | ConnectionTarget.UNKNOWN => .ok (false, st)

/-- `copy_object` returns the adapter's `True`, or `None` on the unknown
target (the trailing `return None`). -/
def controller.copy_object (env : Env) (st : S3State)
    (source_bucket source_object target_bucket target_object : String) :
    Except Err (Option Bool × S3State) :=
  match controller.get_current_target env with
  | ConnectionTarget.MINIO => do
    let r ← minio.copy_object st source_bucket source_object target_bucket target_object
    pure (some r.1, r.2)
  | ConnectionTarget.AWS => do
    let r ← aws.copy_object st source_bucket source_object target_bucket target_object
    pure (some r.1, r.2)
  | ConnectionTarget.UNKNOWN => .ok (none, st)

/-- `get_bucket_objects` returns the adapter's dict of objects (modelled as
the list of object names), or `None` on the unknown target. -/
def controller.get_bucket_objects (env : Env) (st : S3State) (bucket : String)
    (pfx : Option String) : Except Err (Option (List String)) :=
  match controller.get_current_target env with
  | ConnectionTarget.MINIO => do
    let r ← minio.get_bucket_objects st bucket pfx
    pure (some r)
  | ConnectionTarget.AWS => do
    let r ← aws.get_bucket_objects st bucket pfx
    pure (some r)
  | ConnectionTarget.UNKNOWN => .ok none

/-- `get_all_buckets` returns the bucket-name dict (modelled as names), or
`None` on the unknown target. -/
def controller.get_all_buckets (env : Env) (st : S3State) : Option (List String) :=
  match controller.get_current_target env with
  | ConnectionTarget.MINIO => some (minio.get_all_buckets st)
  | ConnectionTarget.AWS => some (aws.get_all_buckets st)
  | ConnectionTarget.UNKNOWN => none

/-- The dispatch tail of `controller.remove_bucket` (the code after the
object check). -/
def controller.remove_bucket_dispatch (env : Env) (st : S3State) (bucket : String) :
    Except Err (Bool × S3State) :=
  match controller.get_current_target env with
  | ConnectionTarget.MINIO => minio.remove_bucket st bucket
  | ConnectionTarget.AWS => aws.remove_bucket st bucket
  | ConnectionTarget.UNKNOWN => .ok (false, st)

/-- The body of the object-deletion loops of `remove_bucket` and
`empty_storage` (`for obj in objects: delete_object(bucket, obj)`). -/
def deleteObjectsStep (env : Env) (bucket : String) (st : S3State) (obj : String) :
    Except Err S3State :=
  controller.delete_object env st bucket obj >>= fun r => pure r.2

/-- `remove_bucket`: `len(objects)` on the `None` an unknown target would
return raises a `TypeError`; that branch is unreachable because
`get_current_target` never yields the unknown target.  The composite
controller functions are written in explicit `>>=` sequencing (one bind per
Python statement) rather than `do` notation. -/
def controller.remove_bucket (env : Env) (st : S3State) (bucket : String)
    (recursive : Bool) : Except Err (Bool × S3State) :=
  controller.get_bucket_objects env st bucket none >>= fun objsOpt =>
  (match objsOpt with
    | some l => pure l
    | none => Except.error (Err.valueError "TypeError: NoneType has no len")) >>= fun objs =>
  if objs.length != 0 then
    if recursive then
      objs.foldlM (deleteObjectsStep env bucket) st >>= fun st1 =>
      controller.remove_bucket_dispatch env st1 bucket
    else pure (false, st)
  else controller.remove_bucket_dispatch env st bucket

/-- The body of the object loop of `archive_bucket`. -/
def archiveStep (env : Env) (bucket : String) (delete_existing : Bool)
    (s : S3State) (bucket_object_name : String) : Except Err S3State :=
  let archive_object_name := bucket ++ "/" ++ bucket_object_name
  controller.object_exists env s ARCHIVE_BUCKET archive_object_name >>= fun ex =>
  (if ex then
      controller.delete_object env s ARCHIVE_BUCKET archive_object_name >>=
        fun r => pure r.2
    else pure s) >>= fun s1 =>
  controller.copy_object env s1 bucket bucket_object_name
      ARCHIVE_BUCKET archive_object_name >>= fun r =>
  (if delete_existing then
      controller.delete_object env r.2 bucket bucket_object_name >>= fun r2 => pure r2.2
    else pure r.2)

/-- `archive_bucket`: archives a bucket object-by-object into
`ARCHIVE_BUCKET` under keys `f"{bucket}/{object_name}"`. -/
def controller.archive_bucket (env : Env) (st : S3State) (bucket : String)
    (pfx : Option String) (delete_existing : Bool) :
    Except Err (Option Bool × S3State) :=
  if !controller.bucket_exists env st bucket then .ok (none, st)
  else
    (if !controller.bucket_exists env st ARCHIVE_BUCKET then
        controller.create_bucket env st ARCHIVE_BUCKET >>= fun r => pure r.2
      else pure st) >>= fun st1 =>
    controller.get_bucket_objects env st1 bucket pfx >>= fun objsOpt =>
    (match objsOpt with
      | some l => pure l
      | none =>
        Except.error (Err.valueError "AttributeError: NoneType has no keys")) >>=
      fun bucket_objects =>
    bucket_objects.foldlM (archiveStep env bucket delete_existing) st1 >>= fun st2 =>
    (if delete_existing then
        controller.remove_bucket env st2 bucket false >>= fun r => pure r.2
      else pure st2) >>= fun st3 =>
    pure (some true, st3)

/-- The body of the bucket loop of `empty_storage`. -/
def emptyStorageStep (env : Env) (only_uuid : Bool) (st : S3State) (bucket : String) :
    Except Err S3State :=
  if only_uuid && !controller.is_uuid bucket then pure st
  else
    controller.get_bucket_objects env st bucket none >>= fun objsOpt =>
    (match objsOpt with
      | some l => pure l
      | none =>
        Except.error (Err.valueError "TypeError: NoneType is not iterable")) >>= fun objs =>
    objs.foldlM (deleteObjectsStep env bucket) st >>= fun st1 =>
    controller.remove_bucket env st1 bucket false >>= fun r =>
    pure r.2

/-- `empty_storage`: iterating the `None` an unknown target would return
raises a `TypeError`; unreachable for the same reason as above. -/
def controller.empty_storage (env : Env) (st : S3State) (force only_uuid : Bool) :
    Except Err (Bool × S3State) :=
  if force then
    (match controller.get_all_buckets env st with
      | some l => pure l
      | none =>
        Except.error (Err.valueError "TypeError: NoneType is not iterable")) >>=
      fun buckets =>
    buckets.foldlM (emptyStorageStep env only_uuid) st >>= fun st1 =>
    pure (force, st1)
  else pure (force, st)

/-! ## Derived state operations, spec-side vocabulary, concrete scenarios -/

/-- The one-bucket effect of `client.remove_object`. -/
def updFn (bucket object_name : String) (bk : S3Bucket) : S3Bucket :=
  if bk.name == bucket then
    ⟨bk.name, bk.objs.filter (fun o => !(o.name == object_name))⟩
  else bk

def S3State.removeObj (st : S3State) (bucket object_name : String) : S3State :=
  st.updateBucket bucket (fun objs => objs.filter (fun o => !(o.name == object_name)))

def S3State.putObj (st : S3State) (bucket object_name data : String) : S3State :=
  st.updateBucket bucket
    (fun objs => objs.filter (fun o => !(o.name == object_name)) ++ [⟨object_name, data⟩])

/-- Spec vocabulary: the read-only action set a download grant may use. -/
def specReadOnlyActions : List String := ["s3:GetObject"]

/-- Spec vocabulary (C3): object-level actions of an upload grant
(`put/get/delete/multipart` on `bucket/*`). -/
def specUploadObjectActions : List String :=
  ["s3:PutObject", "s3:GetObject", "s3:DeleteObject",
   "s3:AbortMultipartUpload", "s3:ListMultipartUploadParts"]

/-- Spec vocabulary (C3): bucket-level actions of an upload grant
(bucket-location and listing on `bucket` itself). -/
def specUploadBucketActions : List String :=
  ["s3:GetBucketLocation", "s3:ListBucket", "s3:ListBucketMultipartUploads"]

def Policy.allActionsIn (p : Policy) (as : List String) : Bool :=
  p.statements.all (fun s => s.actions.all (fun a => as.contains a))

def Policy.allResourcesIn (p : Policy) (rs : List String) : Bool :=
  p.statements.all (fun s => s.resources.all (fun r => rs.contains r))

/-- The policy allows action `a` on resource `r`. -/
def Policy.grants (p : Policy) (a r : String) : Bool :=
  p.statements.any
    (fun s => s.effect == "Allow" && s.actions.contains a && s.resources.contains r)

/-- An environment with no `S3_TARGET` (self-hosted default). -/
def env0 : Env := ⟨none, none⟩

/-- A cloud environment with a region set. -/
def envAws : Env := ⟨some "AWS", some "eu-west-1"⟩

/-- A store holding only the archive bucket, with one archived object. -/
def exArchiveSt : S3State := ⟨[⟨"archive", [⟨"o", "d"⟩]⟩]⟩

/-- A store holding one tenant bucket and the archive bucket. -/
def exTwoSt : S3State :=
  ⟨[⟨"3fa85f64-5717-4562-b3fc-2c963f66afa6", [⟨"x", "1"⟩]⟩, ⟨"archive", [⟨"o", "d"⟩]⟩]⟩

/-- A local file system with a single file `"f"`. -/
def exFs : LocalFS := fun p => if p = "f" then some "filedata" else none

/-! ## Basic lemmas -/

theorem except_bind_ok {α β : Type} {e : Except Err α} {k : α → Except Err β} {v : β} :
    e >>= k = .ok v ↔ ∃ a, e = .ok a ∧ k a = .ok v := by
  cases e <;> simp [Bind.bind, Except.bind]

theorem except_pure_eq {α : Type} (a : α) : (pure a : Except Err α) = .ok a := rfl

theorem bucket_exists_of_lookup {st : S3State} {bucket object_name d : String}
    (h : lookupObj st bucket object_name = some d) :
    client.bucket_exists st bucket = true := by
  unfold lookupObj at h
  unfold client.bucket_exists
  cases hfb : st.findBucket bucket <;> simp [hfb] at h ⊢

theorem minio.object_exists_eval (st : S3State) (bucket object_name : String) :
    minio.object_exists st bucket object_name = .ok (lookupObj st bucket object_name).isSome := by
  unfold minio.object_exists client.stat_object
  cases h : lookupObj st bucket object_name <;> simp [h]

theorem minio.delete_object_of_none {st : S3State} {bucket object_name : String}
    (h : lookupObj st bucket object_name = none) :
    minio.delete_object st bucket object_name = .ok (false, st) := by
  unfold minio.delete_object
  rw [minio.object_exists_eval, h]
  simp [Bind.bind, Except.bind, Pure.pure, Except.pure]

theorem minio.delete_object_of_some {st : S3State} {bucket object_name d : String}
    (h : lookupObj st bucket object_name = some d) :
    minio.delete_object st bucket object_name =
      .ok (true, st.removeObj bucket object_name) := by
  unfold minio.delete_object
  rw [minio.object_exists_eval, h]
  simp [Bind.bind, Except.bind, Pure.pure, Except.pure, client.remove_object,
    bucket_exists_of_lookup h, S3State.removeObj]

theorem updFn_name (bucket object_name : String) (bk : S3Bucket) :
    (updFn bucket object_name bk).name = bk.name := by
  unfold updFn; split <;> rfl

theorem removeObj_buckets (st : S3State) (bucket object_name : String) :
    (st.removeObj bucket object_name).buckets = st.buckets.map (updFn bucket object_name) := rfl

theorem findBucket_removeObj (st : S3State) (bucket object_name c : String) :
    (st.removeObj bucket object_name).findBucket c =
      (st.findBucket c).map (updFn bucket object_name) := by
  unfold S3State.findBucket
  rw [removeObj_buckets, List.find?_map]
  have hp : ((fun bk : S3Bucket => bk.name == c) ∘ updFn bucket object_name) =
      (fun bk : S3Bucket => bk.name == c) := by
    funext bk
    simp only [Function.comp_apply, updFn_name]
  rw [hp]

theorem find?_filter_not_self (l : List S3Object) (n : String) :
    (l.filter (fun o => !(o.name == n))).find? (fun o => o.name == n) = none := by
  rw [List.find?_filter]
  rw [List.find?_eq_none]
  intro x _ hx
  simp at hx

theorem lookup_removeObj_self (st : S3State) (bucket object_name : String) :
    lookupObj (st.removeObj bucket object_name) bucket object_name = none := by
  unfold lookupObj
  rw [findBucket_removeObj]
  cases h : st.findBucket bucket with
  | none => rfl
  | some bk =>
    have hf : List.find? (fun x : S3Bucket => x.name == bucket) st.buckets = some bk := h
    have hname : (bk.name == bucket) = true :=
      List.find?_some (p := fun x : S3Bucket => x.name == bucket) hf
    simp [updFn, hname, S3Bucket.findObj, find?_filter_not_self]

theorem aws.delete_object_same_as_minio (st : S3State) (bucket object_name : String) :
    aws.delete_object st bucket object_name = minio.delete_object st bucket object_name := rfl

/-- Claim C4: `get_current_target` maps the literal `"AWS"` marker to the
cloud target and every other value of `S3_TARGET` (including an unset one)
to the self-hosted target; it is a total function (never raises) and never
yields `UNKNOWN`. -/
theorem c4_get_current_target (env : Env) :
    (controller.get_current_target env = ConnectionTarget.AWS ↔ env.s3_target = some "AWS") ∧
    controller.get_current_target env ≠ ConnectionTarget.UNKNOWN ∧
    (controller.get_current_target env = ConnectionTarget.AWS ∨
      controller.get_current_target env = ConnectionTarget.MINIO) := by
  unfold controller.get_current_target
  by_cases h : env.s3_target = some "AWS" <;> simp [h]

/-- Claim C8: `delete_object` (both variants) on a non-existent object
returns `false` without raising, and a second call after any successful call
on the same `(bucket, name)` returns `false` and leaves the state unchanged. -/
theorem c8_delete_object_idempotent (st : S3State) (bucket object_name : String) :
    (lookupObj st bucket object_name = none →
      minio.delete_object st bucket object_name = .ok (false, st) ∧
      aws.delete_object st bucket object_name = .ok (false, st)) ∧
    (∀ r st1, minio.delete_object st bucket object_name = .ok (r, st1) →
      minio.delete_object st1 bucket object_name = .ok (false, st1)) ∧
    (∀ r st1, aws.delete_object st bucket object_name = .ok (r, st1) →
      aws.delete_object st1 bucket object_name = .ok (false, st1)) := by
  have key : ∀ r st1, minio.delete_object st bucket object_name = .ok (r, st1) →
      minio.delete_object st1 bucket object_name = .ok (false, st1) := by
    intro r st1 h
    cases hl : lookupObj st bucket object_name with
    | none =>
      rw [minio.delete_object_of_none hl] at h
      simp only [Except.ok.injEq, Prod.mk.injEq] at h
      obtain ⟨hr, hst⟩ := h
      subst hst
      exact minio.delete_object_of_none hl
    | some d =>
      rw [minio.delete_object_of_some hl] at h
      simp only [Except.ok.injEq, Prod.mk.injEq] at h
      obtain ⟨hr, hst⟩ := h
      subst hst
      exact minio.delete_object_of_none (lookup_removeObj_self ..)
  refine ⟨fun h => ⟨minio.delete_object_of_none h, by
    rw [aws.delete_object_same_as_minio]; exact minio.delete_object_of_none h⟩, key, ?_⟩
  intro r st1 h
  rw [aws.delete_object_same_as_minio] at h
  rw [aws.delete_object_same_as_minio]
  exact key r st1 h

/-- Witness for C8 at a concrete store: deleting a missing object returns
`false`, and a repeated delete after a successful one is a no-op. -/
theorem c8_delete_object_idempotent_witness :
    minio.delete_object exArchiveSt "archive" "nope" = .ok (false, exArchiveSt) ∧
    minio.delete_object ⟨[⟨"archive", []⟩]⟩ "archive" "o" =
      .ok (false, ⟨[⟨"archive", []⟩]⟩) := by
  refine ⟨((c8_delete_object_idempotent exArchiveSt "archive" "nope").1 (by rfl)).1, ?_⟩
  exact (c8_delete_object_idempotent exArchiveSt "archive" "o").2.1 true
    ⟨[⟨"archive", []⟩]⟩ (by rfl)

theorem findBucket_updateBucket (st : S3State) (bucket : String)
    (f : List S3Object → List S3Object) (c : String) :
    (st.updateBucket bucket f).findBucket c =
      (st.findBucket c).map
        (fun bk => if bk.name == bucket then ⟨bk.name, f bk.objs⟩ else bk) := by
  unfold S3State.findBucket S3State.updateBucket
  rw [List.find?_map]
  have hp : ((fun bk : S3Bucket => bk.name == c) ∘
      (fun bk => if bk.name == bucket then S3Bucket.mk bk.name (f bk.objs) else bk)) =
      (fun bk : S3Bucket => bk.name == c) := by
    funext bk
    simp only [Function.comp_apply]
    split <;> rfl
  rw [hp]

theorem bucket_exists_updateBucket (st : S3State) (bucket : String)
    (f : List S3Object → List S3Object) (c : String) :
    client.bucket_exists (st.updateBucket bucket f) c = client.bucket_exists st c := by
  unfold client.bucket_exists
  rw [findBucket_updateBucket]
  cases st.findBucket c <;> rfl

theorem bucket_exists_removeObj (st : S3State) (bucket object_name c : String) :
    client.bucket_exists (st.removeObj bucket object_name) c = client.bucket_exists st c :=
  bucket_exists_updateBucket ..

theorem lookup_putObj_self {st : S3State} {bucket object_name c : String}
    (h : client.bucket_exists st bucket = true) :
    lookupObj (st.putObj bucket object_name c) bucket object_name = some c := by
  unfold lookupObj S3State.putObj
  rw [findBucket_updateBucket]
  unfold client.bucket_exists at h
  cases hfb : st.findBucket bucket with
  | none => rw [hfb] at h; simp at h
  | some bk =>
    have hf : List.find? (fun x : S3Bucket => x.name == bucket) st.buckets = some bk := hfb
    have hname : (bk.name == bucket) = true :=
      List.find?_some (p := fun x : S3Bucket => x.name == bucket) hf
    have hname2 : bk.name = bucket := by simpa using hname
    simp [hfb, hname2, S3Bucket.findObj, List.find?_append, find?_filter_not_self]
    exact ⟨⟨object_name, c⟩, Or.inr rfl, rfl⟩

theorem minio.upload_object_eval (st : S3State) (fs : LocalFS)
    (bucket object_name file_path : String) (force : Bool) :
    minio.upload_object st fs bucket object_name file_path force =
      if !minio.bucket_exists st bucket then .ok (false, st)
      else if (lookupObj st bucket object_name).isSome && !force then
        .error (.valueError conflictMsg)
      else
        match fs file_path with
        | none => .ok (false,
            if (lookupObj st bucket object_name).isSome then
              st.removeObj bucket object_name
            else st)
        | some c => .ok (true,
            (if (lookupObj st bucket object_name).isSome then
              st.removeObj bucket object_name
            else st).putObj bucket object_name c) := by
  unfold minio.upload_object
  by_cases hb : minio.bucket_exists st bucket
  · rw [minio.object_exists_eval]
    cases hl : lookupObj st bucket object_name with
    | none =>
      cases hf : fs file_path with
      | none =>
        simp [hb, hf, Bind.bind, Except.bind, Pure.pure, Except.pure]
      | some c =>
        have hput : client.fput_object st fs bucket object_name file_path =
            .ok (st.putObj bucket object_name c) := by
          unfold client.fput_object client.put_object
          rw [hf]
          unfold minio.bucket_exists at hb
          simp [hb, S3State.putObj]
        simp [hb, hf, hput, Bind.bind, Except.bind, Pure.pure, Except.pure]
    | some d =>
      cases force with
      | false =>
        simp [hb, Bind.bind, Except.bind, Pure.pure, Except.pure]
      | true =>
        rw [minio.delete_object_of_some hl]
        cases hf : fs file_path with
        | none =>
          simp [hb, hf, Bind.bind, Except.bind, Pure.pure, Except.pure]
        | some c =>
          have hput : client.fput_object (st.removeObj bucket object_name) fs
              bucket object_name file_path =
              .ok ((st.removeObj bucket object_name).putObj bucket object_name c) := by
            unfold client.fput_object client.put_object
            rw [hf]
            unfold minio.bucket_exists at hb
            rw [bucket_exists_removeObj]
            simp [hb, S3State.putObj]
          simp [hb, hf, hput, Bind.bind, Except.bind, Pure.pure, Except.pure]
  · simp [hb, Bind.bind, Except.bind, Pure.pure, Except.pure]

theorem aws.upload_object_eq (st : S3State) (fs : LocalFS)
    (bucket object_name file_path : String) (force : Bool) :
    aws.upload_object st fs bucket object_name file_path force =
      minio.upload_object st fs bucket object_name file_path force := rfl

theorem aws.get_object_eq (st : S3State) (bucket object_name : String) :
    aws.get_object st bucket object_name = minio.get_object st bucket object_name := rfl

/-- Claim C5: `upload_object` (both variants) raises the conflict
`ValueError` iff the remote object exists and `force` is false; with `force`
the pre-existing object is deleted and the final content equals the local
file's (absent if the file is absent); and, when no conflict is raised, a
missing local file makes the call return `false` instead of raising. -/
theorem c5_upload_object_contract (st : S3State) (fs : LocalFS)
    (bucket object_name file_path : String) (force : Bool) :
    (minio.upload_object st fs bucket object_name file_path force =
        .error (.valueError conflictMsg) ↔
      ((lookupObj st bucket object_name).isSome = true ∧ force = false)) ∧
    (aws.upload_object st fs bucket object_name file_path force =
        .error (.valueError conflictMsg) ↔
      ((lookupObj st bucket object_name).isSome = true ∧ force = false)) ∧
    (∀ d, force = true → lookupObj st bucket object_name = some d →
      ∃ st1, minio.upload_object st fs bucket object_name file_path force =
          .ok ((fs file_path).isSome, st1) ∧
        aws.upload_object st fs bucket object_name file_path force =
          .ok ((fs file_path).isSome, st1) ∧
        lookupObj st1 bucket object_name = fs file_path) ∧
    (¬((lookupObj st bucket object_name).isSome = true ∧ force = false) →
      fs file_path = none →
      ∃ st1, minio.upload_object st fs bucket object_name file_path force =
          .ok (false, st1) ∧
        aws.upload_object st fs bucket object_name file_path force =
          .ok (false, st1)) := by
  rw [aws.upload_object_eq, minio.upload_object_eval]
  refine ⟨?_, ?_, ?_, ?_⟩
  · constructor
    · intro h
      by_cases hb : minio.bucket_exists st bucket
      · simp only [hb, Bool.not_true, if_neg (by simp : ¬((false : Bool) = true))] at h
        by_cases hc : ((lookupObj st bucket object_name).isSome && !force) = true
        · simpa using hc
        · rw [if_neg (by simpa using hc)] at h
          cases hfp : fs file_path <;> simp [hfp] at h
      · simp only [Bool.not_eq_true] at hb
        simp [hb] at h
    · rintro ⟨h1, h2⟩
      have hb : minio.bucket_exists st bucket = true := by
        cases hl : lookupObj st bucket object_name with
        | none => rw [hl] at h1; simp at h1
        | some d => exact bucket_exists_of_lookup hl
      simp [hb, h1, h2]
  · constructor
    · intro h
      by_cases hb : minio.bucket_exists st bucket
      · simp only [hb, Bool.not_true, if_neg (by simp : ¬((false : Bool) = true))] at h
        by_cases hc : ((lookupObj st bucket object_name).isSome && !force) = true
        · simpa using hc
        · rw [if_neg (by simpa using hc)] at h
          cases hfp : fs file_path <;> simp [hfp] at h
      · simp only [Bool.not_eq_true] at hb
        simp [hb] at h
    · rintro ⟨h1, h2⟩
      have hb : minio.bucket_exists st bucket = true := by
        cases hl : lookupObj st bucket object_name with
        | none => rw [hl] at h1; simp at h1
        | some d => exact bucket_exists_of_lookup hl
      simp [hb, h1, h2]
  · intro d hforce hl
    have hb : minio.bucket_exists st bucket = true := bucket_exists_of_lookup hl
    subst hforce
    cases hfp : fs file_path with
    | none =>
      refine ⟨st.removeObj bucket object_name, ?_⟩
      simp [hb, hl, hfp, lookup_removeObj_self]
    | some c =>
      refine ⟨(st.removeObj bucket object_name).putObj bucket object_name c, ?_⟩
      have hbe : client.bucket_exists (st.removeObj bucket object_name) bucket = true := by
        rw [bucket_exists_removeObj]
        exact hb
      simp [hb, hl, hfp, lookup_putObj_self hbe]
  · intro hnc hfp
    by_cases hb : minio.bucket_exists st bucket
    · have hcond : ((lookupObj st bucket object_name).isSome && !force) = false := by
        cases hl : (lookupObj st bucket object_name).isSome <;> cases force <;>
          simp_all
      refine ⟨if (lookupObj st bucket object_name).isSome then
        st.removeObj bucket object_name else st, ?_⟩
      simp [hb, hcond, hfp]
    · simp only [Bool.not_eq_true] at hb
      exact ⟨st, by simp [hb]⟩

/-- Claim C10: with `force` and a pre-existing remote object, the remote
object is deleted before the local-file check, so with a missing local file
the call returns `false` leaving the object deleted and not replaced. -/
theorem c10_upload_force_deletes_despite_missing_file (st : S3State) (fs : LocalFS)
    (bucket object_name file_path d : String)
    (hex : lookupObj st bucket object_name = some d) (hfs : fs file_path = none) :
    minio.upload_object st fs bucket object_name file_path true =
      .ok (false, st.removeObj bucket object_name) ∧
    aws.upload_object st fs bucket object_name file_path true =
      .ok (false, st.removeObj bucket object_name) ∧
    lookupObj (st.removeObj bucket object_name) bucket object_name = none := by
  have hb : minio.bucket_exists st bucket = true := bucket_exists_of_lookup hex
  rw [aws.upload_object_eq, minio.upload_object_eval]
  simp [hb, hex, hfs, lookup_removeObj_self]

/-- Witness for C10: uploading over the existing `"o"` with a missing local
file deletes it and returns `false`. -/
theorem c10_upload_force_deletes_despite_missing_file_witness :
    minio.upload_object exArchiveSt exFs "archive" "o" "missing" true =
      .ok (false, exArchiveSt.removeObj "archive" "o") ∧
    aws.upload_object exArchiveSt exFs "archive" "o" "missing" true =
      .ok (false, exArchiveSt.removeObj "archive" "o") ∧
    lookupObj (exArchiveSt.removeObj "archive" "o") "archive" "o" = none :=
  c10_upload_force_deletes_despite_missing_file exArchiveSt exFs
    "archive" "o" "missing" "d" (by rfl) (by rfl)

/-- Claim C6 (amended): `get_object` on a missing bucket returns the empty
string without raising; on a missing object in an existing bucket the
provider's `NoSuchKey` error propagates. -/
theorem c6_get_object_missing (st : S3State) (bucket object_name : String) :
    (minio.bucket_exists st bucket = false →
      minio.get_object st bucket object_name = .ok "" ∧
      aws.get_object st bucket object_name = .ok "") ∧
    (minio.bucket_exists st bucket = true → lookupObj st bucket object_name = none →
      minio.get_object st bucket object_name = .error (.s3Error "NoSuchKey") ∧
      aws.get_object st bucket object_name = .error (.s3Error "NoSuchKey")) := by
  rw [aws.get_object_eq]
  constructor
  · intro h
    unfold minio.get_object
    simp [h]
  · intro hb hl
    unfold minio.get_object client.get_object
    cases hfb : st.findBucket bucket with
    | none =>
      unfold minio.bucket_exists client.bucket_exists at hb
      rw [hfb] at hb
      simp at hb
    | some bk =>
      have hobj : bk.findObj object_name = none := by
        unfold lookupObj at hl
        rw [hfb] at hl
        simpa using hl
      simp [hb, hfb, hobj]

/-- Witness for C6 (amended) at concrete inputs. -/
theorem c6_get_object_missing_witness :
    minio.get_object exArchiveSt "nobucket" "x" = .ok "" ∧
    minio.get_object exArchiveSt "archive" "nope" = .error (.s3Error "NoSuchKey") :=
  ⟨((c6_get_object_missing exArchiveSt "nobucket" "x").1 (by rfl)).1,
   ((c6_get_object_missing exArchiveSt "archive" "nope").2 (by rfl) (by rfl)).1⟩

/-- Claim C6 counterexample: on a store whose `"archive"` bucket exists but
holds no object `"nope"`, `get_object` raises the provider's `NoSuchKey`
error instead of returning an empty value. -/
theorem c6_get_object_missing_counterexample :
    minio.get_object exArchiveSt "archive" "nope" = .error (.s3Error "NoSuchKey") ∧
    aws.get_object exArchiveSt "archive" "nope" = .error (.s3Error "NoSuchKey") :=
  ⟨rfl, rfl⟩

/-- Witness for C5: a conflict is raised at `force = false` over the
existing object, and a forced upload replaces the content. -/
theorem c5_upload_object_contract_witness :
    minio.upload_object exArchiveSt exFs "archive" "o" "p" false =
      .error (.valueError conflictMsg) ∧
    ∃ st1, minio.upload_object exArchiveSt exFs "archive" "o" "f" true =
        .ok (true, st1) ∧
      lookupObj st1 "archive" "o" = some "filedata" := by
  refine ⟨(c5_upload_object_contract exArchiveSt exFs "archive" "o" "p" false).1.mpr
    ⟨by rfl, rfl⟩, ?_⟩
  obtain ⟨st1, hm, _, hl⟩ :=
    (c5_upload_object_contract exArchiveSt exFs "archive" "o" "f" true).2.2.1 "d" rfl (by rfl)
  exact ⟨st1, hm, hl⟩

theorem bucket_exists_append_self (st : S3State) (bucket : String) :
    client.bucket_exists ⟨st.buckets ++ [⟨bucket, []⟩]⟩ bucket = true := by
  unfold client.bucket_exists S3State.findBucket
  rw [List.find?_append]
  cases h : List.find? (fun bk : S3Bucket => bk.name == bucket) st.buckets <;>
    simp [h, List.find?_cons]

/-- Claim C2 (amended): `get_download_credentials` is scoped the other way
round from the claim: the self-hosted (minio) variant issues read-only
credentials on the single object, while the cloud (aws) variant issues
credentials carrying write actions on the whole bucket.  Both leave the
bucket existing. -/
theorem c2_download_credentials_scoping (env : Env) (st : S3State)
    (bucket object : String) :
    (∀ p st1, minio.get_download_credentials st bucket object = .ok (p, st1) →
      p.allActionsIn specReadOnlyActions = true ∧
      p.allResourcesIn [objectArn bucket object] = true ∧
      p.grants "s3:GetObject" (objectArn bucket object) = true ∧
      client.bucket_exists st1 bucket = true) ∧
    (∀ p st1, aws.get_download_credentials env st bucket object = .ok (p, st1) →
      p.allResourcesIn [bucketArn bucket, bucketWildcardArn bucket] = true ∧
      p.grants "s3:PutObject" (bucketWildcardArn bucket) = true ∧
      p.grants "s3:DeleteObject" (bucketWildcardArn bucket) = true ∧
      p.grants "s3:GetObject" (bucketWildcardArn bucket) = true ∧
      client.bucket_exists st1 bucket = true) := by
  constructor
  · intro p st1 h
    unfold minio.get_download_credentials at h
    by_cases hb : minio.bucket_exists st bucket
    · simp only [hb, Bool.not_true, Bool.false_eq_true, if_false,
        Bind.bind, Except.bind, Pure.pure, Except.pure, Except.ok.injEq,
        Prod.mk.injEq] at h
      obtain ⟨hp, hs⟩ := h
      subst hp hs
      refine ⟨rfl, ?_, ?_, hb⟩ <;>
        simp [Policy.allResourcesIn, Policy.grants]
    · simp only [hb, Bool.not_false, if_true, minio.create_bucket,
        client.make_bucket, Bool.not_eq_true] at h
      unfold minio.bucket_exists at hb
      simp only [Bool.not_eq_true] at hb
      simp only [hb, Bool.false_eq_true, if_false, Bind.bind, Except.bind,
        Pure.pure, Except.pure, Except.ok.injEq, Prod.mk.injEq] at h
      obtain ⟨hp, hs⟩ := h
      subst hp hs
      refine ⟨rfl, ?_, ?_, bucket_exists_append_self ..⟩ <;>
        simp [Policy.allResourcesIn, Policy.grants]
  · intro p st1 h
    unfold aws.get_download_credentials at h
    by_cases hb : aws.bucket_exists st bucket
    · simp only [hb, Bool.not_true, Bool.false_eq_true, if_false,
        Bind.bind, Except.bind, Pure.pure, Except.pure, Except.ok.injEq,
        Prod.mk.injEq] at h
      obtain ⟨hp, hs⟩ := h
      subst hp hs
      refine ⟨?_, ?_, ?_, ?_, hb⟩ <;>
        simp [Policy.allResourcesIn, Policy.grants]
    · by_cases hr : env.s3_aws_region.getD "" == ""
      · simp [hb, hr, aws.create_bucket, Bind.bind, Except.bind] at h
      · simp only [hb, Bool.not_false, if_true, aws.create_bucket, hr,
          Bool.false_eq_true, if_false, client.make_bucket] at h
        unfold aws.bucket_exists at hb
        simp only [Bool.not_eq_true] at hb
        simp only [hb, Bool.false_eq_true, if_false, Bind.bind, Except.bind,
          Pure.pure, Except.pure, Except.ok.injEq, Prod.mk.injEq] at h
        obtain ⟨hp, hs⟩ := h
        subst hp hs
        refine ⟨?_, ?_, ?_, ?_, bucket_exists_append_self ..⟩ <;>
          simp [Policy.allResourcesIn, Policy.grants]

/-- Witness for C2 (amended): the concrete grants at `("b", "o")`. -/
theorem c2_download_credentials_scoping_witness :
    Policy.allActionsIn ⟨some "2012-10-17",
      [⟨some "GetObj", "Allow", ["s3:GetObject"], [objectArn "b" "o"]⟩]⟩
      specReadOnlyActions = true ∧
    client.bucket_exists ⟨exArchiveSt.buckets ++ [⟨"b", []⟩]⟩ "b" = true := by
  have h := (c2_download_credentials_scoping envAws exArchiveSt "b" "o").1
    ⟨some "2012-10-17", [⟨some "GetObj", "Allow", ["s3:GetObject"], [objectArn "b" "o"]⟩]⟩
    ⟨exArchiveSt.buckets ++ [⟨"b", []⟩]⟩ (by rfl)
  exact ⟨h.1, h.2.2.2⟩

/-- Claim C2 counterexample: at `("b", "o")` the cloud policy is neither
read-only nor scoped to the single object, and the self-hosted policy is not
bucket-scoped. -/
theorem c2_download_credentials_scoping_counterexample :
    (aws.get_download_credentials envAws exArchiveSt "b" "o").map
      (fun r => (r.1.allActionsIn specReadOnlyActions,
                 r.1.allResourcesIn [objectArn "b" "o"])) = .ok (false, false) ∧
    (minio.get_download_credentials exArchiveSt "b" "o").map
      (fun r => r.1.allResourcesIn [bucketArn "b", bucketWildcardArn "b"]) =
      .ok false := by
  exact ⟨rfl, rfl⟩

/-- Claim C3 (amended): `get_upload_credentials_and_id` auto-creates the
bucket in both variants, but only the cloud (aws) variant's policy carries
the put/get/delete/multipart actions on `bucket/*` plus bucket-location and
listing actions on `bucket`; the self-hosted (minio) variant's policy grants
only `s3:PutObject` on `bucket/*`. -/
theorem c3_upload_credentials_scoping (env : Env) (st : S3State) (bucket : String) :
    (∀ p st1, aws.get_upload_credentials_and_id env st bucket = .ok (p, st1) →
      p.allActionsIn (specUploadObjectActions ++ specUploadBucketActions) = true ∧
      p.allResourcesIn [bucketWildcardArn bucket, bucketArn bucket] = true ∧
      specUploadObjectActions.all
        (fun a => p.grants a (bucketWildcardArn bucket)) = true ∧
      specUploadBucketActions.all
        (fun a => p.grants a (bucketArn bucket)) = true ∧
      client.bucket_exists st1 bucket = true) ∧
    (∀ p st1, minio.get_upload_credentials_and_id st bucket = .ok (p, st1) →
      p.allActionsIn ["s3:PutObject"] = true ∧
      p.allResourcesIn [bucketWildcardArn bucket] = true ∧
      p.grants "s3:PutObject" (bucketWildcardArn bucket) = true ∧
      p.grants "s3:GetObject" (bucketWildcardArn bucket) = false ∧
      client.bucket_exists st1 bucket = true) := by
  constructor
  · intro p st1 h
    unfold aws.get_upload_credentials_and_id at h
    by_cases hb : aws.bucket_exists st bucket
    · simp only [hb, Bool.not_true, Bool.false_eq_true, if_false,
        Bind.bind, Except.bind, Pure.pure, Except.pure, Except.ok.injEq,
        Prod.mk.injEq] at h
      obtain ⟨hp, hs⟩ := h
      subst hp hs
      refine ⟨rfl, ?_, ?_, ?_, hb⟩ <;>
        simp [Policy.allResourcesIn, Policy.grants, specUploadObjectActions,
          specUploadBucketActions]
    · by_cases hr : env.s3_aws_region.getD "" == ""
      · simp [hb, hr, aws.create_bucket, Bind.bind, Except.bind] at h
      · simp only [hb, Bool.not_false, if_true, aws.create_bucket, hr,
          Bool.false_eq_true, if_false, client.make_bucket] at h
        unfold aws.bucket_exists at hb
        simp only [Bool.not_eq_true] at hb
        simp only [hb, Bool.false_eq_true, if_false, Bind.bind, Except.bind,
          Pure.pure, Except.pure, Except.ok.injEq, Prod.mk.injEq] at h
        obtain ⟨hp, hs⟩ := h
        subst hp hs
        refine ⟨rfl, ?_, ?_, ?_, bucket_exists_append_self ..⟩ <;>
          simp [Policy.allResourcesIn, Policy.grants, specUploadObjectActions,
            specUploadBucketActions]
  · intro p st1 h
    unfold minio.get_upload_credentials_and_id at h
    by_cases hb : minio.bucket_exists st bucket
    · simp only [hb, Bool.not_true, Bool.false_eq_true, if_false,
        Bind.bind, Except.bind, Pure.pure, Except.pure, Except.ok.injEq,
        Prod.mk.injEq] at h
      obtain ⟨hp, hs⟩ := h
      subst hp hs
      refine ⟨rfl, ?_, ?_, ?_, hb⟩ <;>
        simp [Policy.allResourcesIn, Policy.grants]
    · simp only [hb, Bool.not_false, if_true, minio.create_bucket,
        client.make_bucket] at h
      unfold minio.bucket_exists at hb
      simp only [Bool.not_eq_true] at hb
      simp only [hb, Bool.false_eq_true, if_false, Bind.bind, Except.bind,
        Pure.pure, Except.pure, Except.ok.injEq, Prod.mk.injEq] at h
      obtain ⟨hp, hs⟩ := h
      subst hp hs
      refine ⟨rfl, ?_, ?_, ?_, bucket_exists_append_self ..⟩ <;>
        simp [Policy.allResourcesIn, Policy.grants]

/-- Witness for C3 (amended): the concrete cloud grant at bucket `"b"`
carries the full action set and the bucket gets created. -/
theorem c3_upload_credentials_scoping_witness :
    specUploadObjectActions.all
      (fun a => Policy.grants ⟨some "2012-10-17",
        [⟨some "PutObj", "Allow",
          ["s3:AbortMultipartUpload", "s3:DeleteObject",
           "s3:ListMultipartUploadParts", "s3:PutObject", "s3:GetObject"],
          [bucketWildcardArn "b"]⟩,
         ⟨none, "Allow",
          ["s3:GetBucketLocation", "s3:ListBucket", "s3:ListBucketMultipartUploads"],
          [bucketArn "b"]⟩]⟩ a (bucketWildcardArn "b")) = true ∧
    client.bucket_exists ⟨exArchiveSt.buckets ++ [⟨"b", []⟩]⟩ "b" = true := by
  have h := (c3_upload_credentials_scoping envAws exArchiveSt "b").1
    ⟨some "2012-10-17",
      [⟨some "PutObj", "Allow",
        ["s3:AbortMultipartUpload", "s3:DeleteObject",
         "s3:ListMultipartUploadParts", "s3:PutObject", "s3:GetObject"],
        [bucketWildcardArn "b"]⟩,
       ⟨none, "Allow",
        ["s3:GetBucketLocation", "s3:ListBucket", "s3:ListBucketMultipartUploads"],
        [bucketArn "b"]⟩]⟩
    ⟨exArchiveSt.buckets ++ [⟨"b", []⟩]⟩ (by rfl)
  exact ⟨h.2.2.1, h.2.2.2.2⟩

/-- Claim C3 counterexample: the self-hosted upload grant at bucket `"b"`
carries neither `s3:GetObject` on `b/*` nor `s3:GetBucketLocation` on `b`,
so it is not the claimed put/get/delete/multipart-plus-listing policy. -/
theorem c3_upload_credentials_scoping_counterexample :
    (minio.get_upload_credentials_and_id exArchiveSt "b").map
      (fun r => (r.1.grants "s3:GetObject" (bucketWildcardArn "b"),
                 r.1.grants "s3:GetBucketLocation" (bucketArn "b"))) =
      .ok (false, false) := by
  exact rfl

theorem controller.target_not_unknown (env : Env) :
    controller.get_current_target env ≠ ConnectionTarget.UNKNOWN := by
  unfold controller.get_current_target
  split <;> simp

theorem controller.bucket_exists_eq (env : Env) (st : S3State) (bucket : String) :
    controller.bucket_exists env st bucket = minio.bucket_exists st bucket := by
  unfold controller.bucket_exists
  cases h : controller.get_current_target env with
  | MINIO => rfl
  | AWS => rfl
  | UNKNOWN => exact absurd h (controller.target_not_unknown env)

theorem controller.object_exists_eq (env : Env) (st : S3State)
    (bucket object_name : String) :
    controller.object_exists env st bucket object_name =
      minio.object_exists st bucket object_name := by
  unfold controller.object_exists
  cases h : controller.get_current_target env with
  | MINIO => rfl
  | AWS => rfl
  | UNKNOWN => exact absurd h (controller.target_not_unknown env)

theorem controller.delete_object_eq (env : Env) (st : S3State)
    (bucket object_name : String) :
    controller.delete_object env st bucket object_name =
      minio.delete_object st bucket object_name := by
  unfold controller.delete_object
  cases h : controller.get_current_target env with
  | MINIO => rfl
  | AWS => rfl
  | UNKNOWN => exact absurd h (controller.target_not_unknown env)

theorem controller.copy_object_eq (env : Env) (st : S3State)
    (source_bucket source_object target_bucket target_object : String) :
    controller.copy_object env st source_bucket source_object
        target_bucket target_object =
      minio.copy_object st source_bucket source_object target_bucket target_object >>=
        fun r => pure (some r.1, r.2) := by
  unfold controller.copy_object
  cases h : controller.get_current_target env with
  | MINIO => rfl
  | AWS => rfl
  | UNKNOWN => exact absurd h (controller.target_not_unknown env)

theorem controller.get_bucket_objects_eq (env : Env) (st : S3State)
    (bucket : String) (pfx : Option String) :
    controller.get_bucket_objects env st bucket pfx =
      minio.get_bucket_objects st bucket pfx >>= fun r => pure (some r) := by
  unfold controller.get_bucket_objects
  cases h : controller.get_current_target env with
  | MINIO => rfl
  | AWS => rfl
  | UNKNOWN => exact absurd h (controller.target_not_unknown env)

theorem controller.get_all_buckets_eq (env : Env) (st : S3State) :
    controller.get_all_buckets env st = some (minio.get_all_buckets st) := by
  unfold controller.get_all_buckets
  cases h : controller.get_current_target env with
  | MINIO => rfl
  | AWS => rfl
  | UNKNOWN => exact absurd h (controller.target_not_unknown env)

theorem controller.remove_bucket_dispatch_eq (env : Env) (st : S3State)
    (bucket : String) :
    controller.remove_bucket_dispatch env st bucket = minio.remove_bucket st bucket := by
  unfold controller.remove_bucket_dispatch
  cases h : controller.get_current_target env with
  | MINIO => rfl
  | AWS => rfl
  | UNKNOWN => exact absurd h (controller.target_not_unknown env)

/-- Claim C9: `archive_bucket` on a missing source bucket is a no-op
returning `None`; every run that completes with the source bucket present
returns `True`. -/
theorem c9_archive_bucket_noop_and_true (env : Env) (st : S3State) (bucket : String)
    (pfx : Option String) (delete_existing : Bool) :
    (controller.bucket_exists env st bucket = false →
      controller.archive_bucket env st bucket pfx delete_existing = .ok (none, st)) ∧
    (controller.bucket_exists env st bucket = true →
      ∀ r st1, controller.archive_bucket env st bucket pfx delete_existing = .ok (r, st1) →
        r = some true) := by
  constructor
  · intro h
    unfold controller.archive_bucket
    rw [h]
    rfl
  · intro hb r st1 h
    unfold controller.archive_bucket at h
    rw [hb] at h
    simp only [Bool.not_true, Bool.false_eq_true, if_false] at h
    obtain ⟨a1, h1, h⟩ := except_bind_ok.mp h
    obtain ⟨a2, h2, h⟩ := except_bind_ok.mp h
    obtain ⟨a3, h3, h⟩ := except_bind_ok.mp h
    obtain ⟨a4, h4, h⟩ := except_bind_ok.mp h
    obtain ⟨a5, h5, h⟩ := except_bind_ok.mp h
    simp only [Pure.pure, Except.pure, Except.ok.injEq, Prod.mk.injEq] at h
    exact h.1.symm

/-- Witness for C9: a missing bucket yields `(None, unchanged store)`; a
present bucket yields `Some true`. -/
theorem c9_archive_bucket_noop_and_true_witness :
    controller.archive_bucket env0 exTwoSt "nobucket" none true = .ok (none, exTwoSt) ∧
    (some true : Option Bool) = some true := by
  refine ⟨(c9_archive_bucket_noop_and_true env0 exTwoSt "nobucket" none true).1 (by rfl), ?_⟩
  exact (c9_archive_bucket_noop_and_true env0 exArchiveSt "archive" none true).2 (by rfl)
    (some true) ⟨[⟨"archive", [⟨"archive/o", "d"⟩]⟩]⟩ (by rfl)

theorem minio.delete_object_run (s : S3State) (bucket object_name : String) :
    minio.delete_object s bucket object_name =
      .ok ((lookupObj s bucket object_name).isSome,
        if (lookupObj s bucket object_name).isSome then
          s.removeObj bucket object_name
        else s) := by
  cases hl : lookupObj s bucket object_name with
  | none => simp [minio.delete_object_of_none hl, hl]
  | some d => simp [minio.delete_object_of_some hl, hl]

theorem deleteObjectsStep_run (env : Env) (bucket : String) (s : S3State)
    (object_name : String) :
    deleteObjectsStep env bucket s object_name =
      .ok (if (lookupObj s bucket object_name).isSome then
        s.removeObj bucket object_name
      else s) := by
  unfold deleteObjectsStep
  rw [controller.delete_object_eq, minio.delete_object_run]
  rfl

theorem findBucket_name {s : S3State} {bucket : String} {bk : S3Bucket}
    (h : s.findBucket bucket = some bk) : (bk.name == bucket) = true := by
  have hf : List.find? (fun x : S3Bucket => x.name == bucket) s.buckets = some bk := h
  exact List.find?_some (p := fun x : S3Bucket => x.name == bucket) hf

theorem findBucket_removeObj_self (s : S3State) (bucket object_name : String) :
    (s.removeObj bucket object_name).findBucket bucket =
      (s.findBucket bucket).map
        (fun bk => S3Bucket.mk bk.name (bk.objs.filter (fun x => !(x.name == object_name)))) := by
  rw [findBucket_removeObj]
  cases hf : s.findBucket bucket with
  | none => rfl
  | some bk =>
    have hname := findBucket_name hf
    simp [updFn, hname]

theorem findBucket_removeObj_other {s : S3State} {bucket object_name c : String}
    (h : ¬(c = bucket)) :
    (s.removeObj bucket object_name).findBucket c = s.findBucket c := by
  rw [findBucket_removeObj]
  cases hf : s.findBucket c with
  | none => rfl
  | some bk =>
    have hname : bk.name = c := by simpa using findBucket_name hf
    have hnb : (bk.name == bucket) = false := by
      rw [hname]
      exact beq_false_of_ne h
    simp [updFn, hnb]

theorem filter_out_map_updFn (l : List S3Bucket) (bucket object_name : String) :
    (l.map (updFn bucket object_name)).filter (fun bk => !(bk.name == bucket)) =
      l.filter (fun bk => !(bk.name == bucket)) := by
  induction l with
  | nil => rfl
  | cons bk rest ih =>
    by_cases hb : (bk.name == bucket) = true
    · simp only [List.map_cons, List.filter_cons, updFn_name, hb, Bool.not_true,
        Bool.false_eq_true, if_false, ih]
    · have hb2 : (bk.name == bucket) = false := by simpa using hb
      have hid : updFn bucket object_name bk = bk := by simp [updFn, hb2]
      simp only [List.map_cons, List.filter_cons, updFn_name, hb2, Bool.not_false,
        if_true, ih, hid]

theorem lookup_none_filter_self {s : S3State} {bucket object_name : String} {bk : S3Bucket}
    (hf : s.findBucket bucket = some bk)
    (hl : lookupObj s bucket object_name = none) :
    bk.objs.filter (fun x => !(x.name == object_name)) = bk.objs := by
  have hobj : bk.findObj object_name = none := by
    unfold lookupObj at hl
    rw [hf] at hl
    simpa using hl
  rw [List.filter_eq_self]
  intro x hx
  have := List.find?_eq_none.mp hobj x hx
  simpa using this

theorem delete_step_state (env : Env) (bucket : String) (s : S3State)
    (object_name : String) :
    ∃ t, deleteObjectsStep env bucket s object_name = .ok t ∧
      t.findBucket bucket = (s.findBucket bucket).map
        (fun bk => S3Bucket.mk bk.name
          (bk.objs.filter (fun x => !(x.name == object_name)))) ∧
      (∀ c, ¬(c = bucket) → t.findBucket c = s.findBucket c) ∧
      t.buckets.filter (fun bk => !(bk.name == bucket)) =
        s.buckets.filter (fun bk => !(bk.name == bucket)) := by
  rw [deleteObjectsStep_run]
  cases hl : (lookupObj s bucket object_name).isSome with
  | true =>
    refine ⟨s.removeObj bucket object_name, by simp [hl], findBucket_removeObj_self .., ?_, ?_⟩
    · intro c hc
      exact findBucket_removeObj_other hc
    · rw [removeObj_buckets]
      exact filter_out_map_updFn ..
  | false =>
    refine ⟨s, by simp [hl], ?_, fun c _ => rfl, rfl⟩
    cases hf : s.findBucket bucket with
    | none => rfl
    | some bk =>
      have : lookupObj s bucket object_name = none := by
        cases h2 : lookupObj s bucket object_name with
        | none => rfl
        | some d => rw [h2] at hl; simp at hl
      rw [Option.map_some']
      rw [lookup_none_filter_self hf this]

theorem delete_fold_state (env : Env) (bucket : String) :
    ∀ (os : List String) (s : S3State), ∃ t,
      os.foldlM (deleteObjectsStep env bucket) s = .ok t ∧
      t.findBucket bucket = (s.findBucket bucket).map
        (fun bk => S3Bucket.mk bk.name
          (bk.objs.filter (fun x => !(os.contains x.name)))) ∧
      (∀ c, ¬(c = bucket) → t.findBucket c = s.findBucket c) ∧
      t.buckets.filter (fun bk => !(bk.name == bucket)) =
        s.buckets.filter (fun bk => !(bk.name == bucket)) := by
  intro os
  induction os with
  | nil =>
    intro s
    refine ⟨s, by simp [List.foldlM_nil]; rfl, ?_, fun c _ => rfl, rfl⟩
    cases hf : s.findBucket bucket <;> simp
  | cons o rest ih =>
    intro s
    obtain ⟨t0, hstep, h2, h3, h4⟩ := delete_step_state env bucket s o
    obtain ⟨t, hfold, i2, i3, i4⟩ := ih t0
    refine ⟨t, ?_, ?_, fun c hc => (i3 c hc).trans (h3 c hc), i4.trans h4⟩
    · rw [List.foldlM_cons, hstep]
      simpa [Bind.bind, Except.bind] using hfold
    · rw [i2, h2, Option.map_map]
      cases hf : s.findBucket bucket with
      | none => rfl
      | some bk =>
        simp only [Option.map_some', Function.comp_apply]
        rw [List.filter_filter]
        have hpt : ∀ x ∈ bk.objs,
            (!rest.contains x.name && !(x.name == o)) = (!(o :: rest).contains x.name) := by
          intro x _
          rw [List.contains_cons, Bool.not_or, Bool.and_comm]
        rw [List.filter_congr hpt]

theorem filter_not_contains_self (l : List S3Object) :
    l.filter (fun x => !((l.map S3Object.name).contains x.name)) = [] := by
  rw [List.filter_eq_nil_iff]
  intro x hx
  have hmem : x.name ∈ l.map S3Object.name := List.mem_map_of_mem S3Object.name hx
  simp [List.elem_iff, hmem]

theorem controller.remove_bucket_run_empty (env : Env) (t : S3State)
    (bucket nm : String) (h : t.findBucket bucket = some ⟨nm, []⟩) :
    controller.remove_bucket env t bucket false =
      .ok (true, ⟨t.buckets.filter (fun x => !(x.name == bucket))⟩) := by
  unfold controller.remove_bucket
  rw [controller.get_bucket_objects_eq]
  unfold minio.get_bucket_objects client.list_objects
  rw [h]
  rw [controller.remove_bucket_dispatch_eq]
  unfold minio.remove_bucket client.remove_bucket
  rw [h]
  simp [Bind.bind, Except.bind, Pure.pure, Except.pure]

theorem findBucket_filter_ne {s : S3State} {bucket c : String} (h : ¬(c = bucket)) :
    S3State.findBucket ⟨s.buckets.filter (fun x => !(x.name == bucket))⟩ c =
      s.findBucket c := by
  unfold S3State.findBucket
  rw [List.find?_filter]
  have hp : (fun a : S3Bucket =>
      decide ((!(a.name == bucket)) = true ∧ (a.name == c) = true)) =
      (fun a : S3Bucket => a.name == c) := by
    funext a
    by_cases hc : (a.name == c) = true
    · have : a.name = c := by simpa using hc
      have hnb : (a.name == bucket) = false := by
        rw [this]
        exact beq_false_of_ne h
      simp [hc, hnb]
    · simp [hc]
  rw [hp]

theorem emptyStorageStep_run (env : Env) (n : String) (s : S3State)
    (hex : (s.findBucket n).isSome = true) :
    emptyStorageStep env true s n =
      .ok (if controller.is_uuid n then
        ⟨s.buckets.filter (fun bk => !(bk.name == n))⟩
      else s) := by
  by_cases hu : controller.is_uuid n
  · obtain ⟨bk, hbk⟩ := Option.isSome_iff_exists.mp hex
    unfold emptyStorageStep
    rw [controller.get_bucket_objects_eq]
    unfold minio.get_bucket_objects client.list_objects
    rw [hbk]
    obtain ⟨t0, hfold, h2, h3, h4⟩ :=
      delete_fold_state env n (bk.objs.map S3Object.name) s
    have ht0 : t0.findBucket n = some ⟨bk.name, []⟩ := by
      rw [h2, hbk, Option.map_some']
      rw [filter_not_contains_self]
    have hrem := controller.remove_bucket_run_empty env t0 n bk.name ht0
    have hfinal : (⟨t0.buckets.filter (fun x => !(x.name == n))⟩ : S3State) =
        ⟨s.buckets.filter (fun bk => !(bk.name == n))⟩ := by
      simp only [S3State.mk.injEq]
      exact h4
    simp [hu, hfold, hrem, hfinal, Bind.bind, Except.bind, Pure.pure, Except.pure]
  · unfold emptyStorageStep
    simp [hu]
    rfl

theorem empty_fold_run (env : Env) :
    ∀ (names : List String) (s : S3State), names.Nodup →
      (∀ n ∈ names, (s.findBucket n).isSome = true) →
      names.foldlM (emptyStorageStep env true) s =
        .ok ⟨s.buckets.filter
          (fun bk => !(controller.is_uuid bk.name && names.contains bk.name))⟩ := by
  intro names
  induction names with
  | nil =>
    intro s _ _
    rw [List.foldlM_nil]
    have hall : s.buckets.filter
        (fun bk => !(controller.is_uuid bk.name && ([] : List String).contains bk.name)) =
        s.buckets := by
      rw [List.filter_eq_self]
      intro a _
      simp
    rw [hall]
    rfl
  | cons n rest ih =>
    intro s hnd hex
    have hnds := List.nodup_cons.mp hnd
    rw [List.foldlM_cons]
    rw [emptyStorageStep_run env n s (hex n (List.mem_cons_self ..))]
    by_cases hu : controller.is_uuid n
    · rw [if_pos hu]
      have hex2 : ∀ m ∈ rest,
          ((⟨s.buckets.filter (fun bk => !(bk.name == n))⟩ : S3State).findBucket m).isSome =
            true := by
        intro m hm
        have hmn : ¬(m = n) := fun he => hnds.1 (he ▸ hm)
        rw [findBucket_filter_ne hmn]
        exact hex m (List.mem_cons_of_mem _ hm)
      have hrest := ih (⟨s.buckets.filter (fun bk => !(bk.name == n))⟩ : S3State)
        hnds.2 hex2
      simp only [Bind.bind, Except.bind]
      rw [hrest]
      simp only [Except.ok.injEq, S3State.mk.injEq]
      rw [List.filter_filter]
      have hpt : ∀ x ∈ s.buckets,
          ((!(controller.is_uuid x.name && rest.contains x.name)) && !(x.name == n)) =
          (!(controller.is_uuid x.name && (n :: rest).contains x.name)) := by
        intro x _
        by_cases hxn : (x.name == n) = true
        · have hxn2 : x.name = n := by simpa using hxn
          rw [hxn2]
          simp [List.contains_cons, hu]
        · have hxn2 : ¬(x.name = n) := by simpa using hxn
          simp [List.contains_cons, hxn2]
      rw [List.filter_congr hpt]
    · rw [if_neg hu]
      have hrest := ih s hnds.2 (fun m hm => hex m (List.mem_cons_of_mem _ hm))
      simp only [Bind.bind, Except.bind]
      rw [hrest]
      simp only [Except.ok.injEq, S3State.mk.injEq]
      have hpt : ∀ x ∈ s.buckets,
          (!(controller.is_uuid x.name && rest.contains x.name)) =
          (!(controller.is_uuid x.name && (n :: rest).contains x.name)) := by
        intro x _
        by_cases hxn : (x.name == n) = true
        · have hxn2 : x.name = n := by simpa using hxn
          have hu2 : controller.is_uuid x.name = false := by
            rw [hxn2]
            simpa using hu
          simp [hu2]
        · have hxn2 : ¬(x.name = n) := by simpa using hxn
          simp [List.contains_cons, hxn2]
      rw [List.filter_congr hpt]

/-- Claim C7: `empty_storage` without `force` is a pure no-op; with
`force = true` and `only_uuid = true` it removes exactly the buckets whose
name matches the uuid regex (emptying them first) and leaves every other
bucket and its objects unchanged. -/
theorem c7_empty_storage_contract (env : Env) (st : S3State) (only_uuid : Bool)
    (hWF : st.WF) :
    controller.empty_storage env st false only_uuid = .ok (false, st) ∧
    controller.empty_storage env st true true =
      .ok (true, ⟨st.buckets.filter (fun bk => !(controller.is_uuid bk.name))⟩) := by
  constructor
  · rfl
  · have hred : controller.empty_storage env st true true =
        (st.buckets.map S3Bucket.name).foldlM (emptyStorageStep env true) st >>=
          fun st1 => pure (true, st1) := by
      unfold controller.empty_storage
      rw [controller.get_all_buckets_eq]
      rfl
    have hex : ∀ n ∈ st.buckets.map S3Bucket.name, (st.findBucket n).isSome = true := by
      intro n hn
      obtain ⟨bk, hbk, hname⟩ := List.mem_map.mp hn
      show (List.find? (fun bk : S3Bucket => bk.name == n) st.buckets).isSome = true
      rw [List.find?_isSome]
      exact ⟨bk, hbk, by simp [hname]⟩
    have hfold := empty_fold_run env (st.buckets.map S3Bucket.name) st hWF.1 hex
    rw [hred]
    simp only [Bind.bind, Except.bind]
    rw [hfold]
    simp only [Except.ok.injEq, Pure.pure, Except.pure, Prod.mk.injEq, S3State.mk.injEq]
    refine ⟨trivial, ?_⟩
    apply List.filter_congr
    intro x hx
    have hmem : x.name ∈ st.buckets.map S3Bucket.name := List.mem_map_of_mem S3Bucket.name hx
    simp [List.elem_iff, hmem]

/-- Witness for C7 at a concrete two-bucket store: the tenant (uuid) bucket
is removed, the `"archive"` bucket survives untouched. -/
theorem c7_empty_storage_contract_witness :
    controller.empty_storage env0 exTwoSt false true = .ok (false, exTwoSt) ∧
    controller.empty_storage env0 exTwoSt true true =
      .ok (true, ⟨[⟨"archive", [⟨"o", "d"⟩]⟩]⟩) ∧
    controller.is_uuid "3fa85f64-5717-4562-b3fc-2c963f66afa6" = true ∧
    controller.is_uuid "archive" = false := by
  have h := c7_empty_storage_contract env0 exTwoSt true (by decide)
  refine ⟨h.1, ?_, by decide, by decide⟩
  have h2 := h.2
  rwa [show exTwoSt.buckets.filter (fun bk => !(controller.is_uuid bk.name)) =
    [⟨"archive", [⟨"o", "d"⟩]⟩] by decide] at h2

theorem findBucket_updateBucket_other {s : S3State} {bucket : String}
    {f : List S3Object → List S3Object} {c : String} (h : ¬(c = bucket)) :
    (s.updateBucket bucket f).findBucket c = s.findBucket c := by
  rw [findBucket_updateBucket]
  cases hf : s.findBucket c with
  | none => rfl
  | some bk =>
    have hname : bk.name = c := by simpa using findBucket_name hf
    have hnb : (bk.name == bucket) = false := by
      rw [hname]
      exact beq_false_of_ne h
    simp only [Option.map_some']
    rw [if_neg (by simp [hnb])]

theorem lookup_updateBucket_other {s : S3State} {bucket : String}
    {f : List S3Object → List S3Object} {c k : String} (h : ¬(c = bucket)) :
    lookupObj (s.updateBucket bucket f) c k = lookupObj s c k := by
  unfold lookupObj
  rw [findBucket_updateBucket_other h]

theorem findObj_filter_ne {objs : List S3Object} {n m : String} (h : ¬(m = n)) :
    (objs.filter (fun x => !(x.name == n))).find? (fun x => x.name == m) =
      objs.find? (fun x => x.name == m) := by
  rw [List.find?_filter]
  have hp : (fun a : S3Object =>
      decide ((!(a.name == n)) = true ∧ (a.name == m) = true)) =
      (fun a : S3Object => a.name == m) := by
    funext a
    by_cases hm : (a.name == m) = true
    · have : a.name = m := by simpa using hm
      have hnn : (a.name == n) = false := by
        rw [this]
        exact beq_false_of_ne h
      simp [hm, hnn]
    · simp [hm]
  rw [hp]

theorem lookup_removeObj_other_key {s : S3State} {bucket n m : String}
    (h : ¬(m = n)) :
    lookupObj (s.removeObj bucket n) bucket m = lookupObj s bucket m := by
  unfold lookupObj
  rw [findBucket_removeObj_self]
  cases hf : s.findBucket bucket with
  | none => rfl
  | some bk =>
    simp only [Option.map_some', Option.some_bind]
    unfold S3Bucket.findObj
    rw [findObj_filter_ne h]

theorem lookup_putObj_other_key {s : S3State} {bucket n d m : String}
    (h : ¬(m = n)) :
    lookupObj (s.putObj bucket n d) bucket m = lookupObj s bucket m := by
  unfold lookupObj S3State.putObj
  rw [findBucket_updateBucket]
  cases hf : s.findBucket bucket with
  | none => rfl
  | some bk =>
    have hname := findBucket_name hf
    simp only [Option.map_some', Option.some_bind]
    rw [if_pos hname]
    unfold S3Bucket.findObj
    rw [List.find?_append, findObj_filter_ne h]
    have hsingle : List.find? (fun x : S3Object => x.name == m) [⟨n, d⟩] = none := by
      simp [List.find?_cons, beq_false_of_ne (fun he => h he.symm)]
    rw [hsingle]
    cases bk.objs.find? (fun x => x.name == m) <;> rfl

theorem lookup_of_filtered_bucket {t s : S3State} {bucket n m : String}
    (h : t.findBucket bucket = (s.findBucket bucket).map
      (fun bk => S3Bucket.mk bk.name (bk.objs.filter (fun x => !(x.name == n)))))
    (hmn : ¬(m = n)) :
    lookupObj t bucket m = lookupObj s bucket m := by
  unfold lookupObj
  rw [h]
  cases hf : s.findBucket bucket with
  | none => rfl
  | some bk =>
    simp only [Option.map_some', Option.some_bind]
    unfold S3Bucket.findObj
    rw [findObj_filter_ne hmn]

theorem findBucket_filter_self (t : S3State) (bucket : String) :
    S3State.findBucket ⟨t.buckets.filter (fun x => !(x.name == bucket))⟩ bucket = none := by
  unfold S3State.findBucket
  rw [List.find?_filter]
  rw [List.find?_eq_none]
  intro x _ hx
  simp at hx

theorem string_append_key_inj {bucket m n : String}
    (h : bucket ++ "/" ++ m = bucket ++ "/" ++ n) : m = n := by
  have hd : (bucket ++ "/" ++ m).data = (bucket ++ "/" ++ n).data := by rw [h]
  rw [String.data_append, String.data_append] at hd
  exact String.ext (List.append_cancel_left hd)

theorem client.put_object_ok {s : S3State} {bucket object_name data : String}
    (h : client.bucket_exists s bucket = true) :
    client.put_object s bucket object_name data = .ok (s.putObj bucket object_name data) := by
  unfold client.put_object S3State.putObj
  rw [if_pos h]

theorem lookup_putObj_other_bucket {s : S3State} {bucket n d c k : String}
    (h : ¬(c = bucket)) :
    lookupObj (s.putObj bucket n d) c k = lookupObj s c k :=
  lookup_updateBucket_other h

theorem lookup_removeObj_other_bucket {s : S3State} {bucket n c k : String}
    (h : ¬(c = bucket)) :
    lookupObj (s.removeObj bucket n) c k = lookupObj s c k :=
  lookup_updateBucket_other h

theorem findBucket_putObj_other {s : S3State} {bucket n d c : String}
    (h : ¬(c = bucket)) :
    (s.putObj bucket n d).findBucket c = s.findBucket c :=
  findBucket_updateBucket_other h

theorem bucket_exists_putObj (s : S3State) (bucket n d c : String) :
    client.bucket_exists (s.putObj bucket n d) c = client.bucket_exists s c :=
  bucket_exists_updateBucket ..

theorem archiveStep_tail_inv (env : Env) (bucket : String)
    (hnb : ¬(bucket = ARCHIVE_BUCKET)) {s s1 t : S3State} {n : String}
    (harch1 : (s1.findBucket ARCHIVE_BUCKET).isSome = true)
    (hfb : s1.findBucket bucket = s.findBucket bucket)
    (hka : ∀ k, ¬(k = bucket ++ "/" ++ n) →
      lookupObj s1 ARCHIVE_BUCKET k = lookupObj s ARCHIVE_BUCKET k)
    (h : (controller.copy_object env s1 bucket n ARCHIVE_BUCKET (bucket ++ "/" ++ n) >>=
      fun r => controller.delete_object env r.2 bucket n >>= fun r2 => pure r2.2) = .ok t) :
    ∃ d, lookupObj s bucket n = some d ∧
      lookupObj t ARCHIVE_BUCKET (bucket ++ "/" ++ n) = some d ∧
      (∀ k, ¬(k = bucket ++ "/" ++ n) →
        lookupObj t ARCHIVE_BUCKET k = lookupObj s ARCHIVE_BUCKET k) ∧
      t.findBucket bucket = (s.findBucket bucket).map
        (fun bk => S3Bucket.mk bk.name (bk.objs.filter (fun x => !(x.name == n)))) ∧
      (t.findBucket ARCHIVE_BUCKET).isSome = true := by
  have hnab : ¬(ARCHIVE_BUCKET = bucket) := fun he => hnb he.symm
  have hl1 : lookupObj s1 bucket n = lookupObj s bucket n := by
    unfold lookupObj
    rw [hfb]
  rw [controller.copy_object_eq] at h
  unfold minio.copy_object client.copy_object at h
  cases hl : lookupObj s1 bucket n with
  | none =>
    rw [hl] at h
    simp [Bind.bind, Except.bind] at h
  | some d =>
    rw [hl] at h
    have hbe : client.bucket_exists s1 ARCHIVE_BUCKET = true := harch1
    simp only [Bind.bind, Except.bind, Pure.pure, Except.pure] at h
    rw [client.put_object_ok hbe] at h
    simp only [Bind.bind, Except.bind, Pure.pure, Except.pure] at h
    rw [controller.delete_object_eq, minio.delete_object_run] at h
    have hl2 : lookupObj (s1.putObj ARCHIVE_BUCKET (bucket ++ "/" ++ n) d) bucket n =
        some d := by
      rw [lookup_putObj_other_bucket hnb]
      exact hl
    rw [hl2] at h
    simp only [Option.isSome_some, if_true, Pure.pure, Except.pure,
      Except.ok.injEq] at h
    subst h
    refine ⟨d, hl1 ▸ hl, ?_, ?_, ?_, ?_⟩
    · rw [lookup_removeObj_other_bucket hnab]
      exact lookup_putObj_self hbe
    · intro k hk
      rw [lookup_removeObj_other_bucket hnab, lookup_putObj_other_key hk]
      exact hka k hk
    · rw [findBucket_removeObj_self, findBucket_putObj_other hnb, hfb]
    · show (((s1.putObj ARCHIVE_BUCKET (bucket ++ "/" ++ n) d).removeObj bucket n).findBucket
        ARCHIVE_BUCKET).isSome = true
      rw [findBucket_removeObj_other hnab]
      exact (bucket_exists_putObj ..).trans hbe

theorem archiveStep_inv (env : Env) (bucket : String)
    (hnb : ¬(bucket = ARCHIVE_BUCKET)) {s t : S3State} {n : String}
    (harch : (s.findBucket ARCHIVE_BUCKET).isSome = true)
    (h : archiveStep env bucket true s n = .ok t) :
    ∃ d, lookupObj s bucket n = some d ∧
      lookupObj t ARCHIVE_BUCKET (bucket ++ "/" ++ n) = some d ∧
      (∀ k, ¬(k = bucket ++ "/" ++ n) →
        lookupObj t ARCHIVE_BUCKET k = lookupObj s ARCHIVE_BUCKET k) ∧
      t.findBucket bucket = (s.findBucket bucket).map
        (fun bk => S3Bucket.mk bk.name (bk.objs.filter (fun x => !(x.name == n)))) ∧
      (t.findBucket ARCHIVE_BUCKET).isSome = true := by
  unfold archiveStep at h
  simp only [Bind.bind] at h
  rw [controller.object_exists_eq, minio.object_exists_eval] at h
  cases hexA : (lookupObj s ARCHIVE_BUCKET (bucket ++ "/" ++ n)).isSome with
  | true =>
    rw [hexA] at h
    rw [controller.delete_object_eq, minio.delete_object_run] at h
    rw [hexA] at h
    exact archiveStep_tail_inv env bucket hnb
      ((bucket_exists_removeObj s ARCHIVE_BUCKET (bucket ++ "/" ++ n) ARCHIVE_BUCKET).trans
        harch)
      (findBucket_removeObj_other hnb)
      (fun k hk => lookup_removeObj_other_key hk) h
  | false =>
    rw [hexA] at h
    exact archiveStep_tail_inv env bucket hnb harch rfl (fun k _ => rfl) h

theorem archive_fold_inv (env : Env) (bucket : String)
    (hnb : ¬(bucket = ARCHIVE_BUCKET)) :
    ∀ (names : List String) (s t : S3State), names.Nodup →
      (s.findBucket ARCHIVE_BUCKET).isSome = true →
      names.foldlM (archiveStep env bucket true) s = .ok t →
      (∀ n ∈ names,
        lookupObj t ARCHIVE_BUCKET (bucket ++ "/" ++ n) = lookupObj s bucket n) ∧
      t.findBucket bucket = (s.findBucket bucket).map
        (fun bk => S3Bucket.mk bk.name
          (bk.objs.filter (fun x => !(names.contains x.name)))) ∧
      (∀ k, (∀ n ∈ names, ¬(k = bucket ++ "/" ++ n)) →
        lookupObj t ARCHIVE_BUCKET k = lookupObj s ARCHIVE_BUCKET k) ∧
      (t.findBucket ARCHIVE_BUCKET).isSome = true := by
  intro names
  induction names with
  | nil =>
    intro s t _ harch h
    rw [List.foldlM_nil] at h
    have ht : s = t := by
      simpa [Pure.pure, Except.pure] using h
    subst ht
    refine ⟨by simp, ?_, fun k _ => rfl, harch⟩
    cases hf : s.findBucket bucket <;> simp
  | cons n rest ih =>
    intro s t hnd harch h
    have hnds := List.nodup_cons.mp hnd
    rw [List.foldlM_cons] at h
    obtain ⟨t0, hstep, hfold⟩ := except_bind_ok.mp h
    obtain ⟨d, hd, ha1, ha2, ha3, ha4⟩ := archiveStep_inv env bucket hnb harch hstep
    obtain ⟨i1, i2, i3, i4⟩ := ih t0 t hnds.2 ha4 hfold
    refine ⟨?_, ?_, ?_, i4⟩
    · intro m hm
      rcases List.mem_cons.mp hm with hm | hm
      · subst hm
        have hkeys : ∀ x ∈ rest, ¬(bucket ++ "/" ++ m = bucket ++ "/" ++ x) := by
          intro x hx he
          exact hnds.1 (string_append_key_inj he ▸ hx)
        rw [i3 (bucket ++ "/" ++ m) hkeys, ha1, hd]
      · have hmn : ¬(m = n) := fun he => hnds.1 (he ▸ hm)
        rw [i1 m hm]
        exact lookup_of_filtered_bucket ha3 hmn
    · rw [i2, ha3, Option.map_map]
      cases hf : s.findBucket bucket with
      | none => rfl
      | some bk =>
        simp only [Option.map_some', Function.comp_apply]
        rw [List.filter_filter]
        have hpt : ∀ x ∈ bk.objs,
            ((!rest.contains x.name) && !(x.name == n)) =
            (!((n :: rest).contains x.name)) := by
          intro x _
          rw [List.contains_cons, Bool.not_or, Bool.and_comm]
        rw [List.filter_congr hpt]
    · intro k hk
      have hkrest : ∀ m ∈ rest, ¬(k = bucket ++ "/" ++ m) := by
        intro m hm
        exact hk m (List.mem_cons_of_mem _ hm)
      rw [i3 k hkrest]
      exact ha2 k (hk n (List.mem_cons_self ..))

theorem controller.create_bucket_state {env : Env} {st : S3State} {bucket : String}
    {v : Bool} {s : S3State}
    (h : controller.create_bucket env st bucket = .ok (v, s)) :
    client.bucket_exists st bucket = false ∧ s = ⟨st.buckets ++ [⟨bucket, []⟩]⟩ := by
  unfold controller.create_bucket at h
  cases htgt : controller.get_current_target env with
  | UNKNOWN => exact absurd htgt (controller.target_not_unknown env)
  | MINIO =>
    rw [htgt] at h
    unfold minio.create_bucket client.make_bucket at h
    by_cases hb : client.bucket_exists st bucket = true
    · rw [if_pos hb] at h
      simp [Bind.bind, Except.bind] at h
    · have hb2 : client.bucket_exists st bucket = false := by simpa using hb
      have hbn : ¬(client.bucket_exists st bucket = true) := by simp [hb2]
      rw [if_neg hbn] at h
      simp only [Bind.bind, Except.bind, Pure.pure, Except.pure, Except.ok.injEq,
        Prod.mk.injEq] at h
      exact ⟨hb2, h.2.symm⟩
  | AWS =>
    rw [htgt] at h
    unfold aws.create_bucket at h
    by_cases hr : (env.s3_aws_region.getD "" == "") = true
    · simp [hr, Bind.bind, Except.bind] at h
    · have hr2 : (env.s3_aws_region.getD "" == "") = false := by simpa using hr
      rw [hr2] at h
      unfold client.make_bucket at h
      by_cases hb : client.bucket_exists st bucket = true
      · rw [if_pos hb] at h
        simp [Bind.bind, Except.bind] at h
      · have hb2 : client.bucket_exists st bucket = false := by simpa using hb
        have hbn : ¬(client.bucket_exists st bucket = true) := by simp [hb2]
        rw [if_neg hbn] at h
        simp only [Bind.bind, Except.bind, Pure.pure, Except.pure,
          Bool.false_eq_true, if_false, Except.ok.injEq, Prod.mk.injEq] at h
        exact ⟨hb2, h.2.symm⟩

theorem findBucket_append_of_some {st : S3State} {bucket : String} {bk : S3Bucket}
    (h : st.findBucket bucket = some bk) (nb : S3Bucket) :
    S3State.findBucket ⟨st.buckets ++ [nb]⟩ bucket = some bk := by
  unfold S3State.findBucket at h ⊢
  rw [List.find?_append, h]
  rfl

/-- Claim C1 (amended): for every existing bucket other than the archive
bucket itself, a completed `archive_bucket(bucket, prefix=None,
delete_existing=True)` run returns `True`, leaves every object formerly in
the bucket stored in the archive bucket under `""{bucket}/{name}""` with its
original content, and removes the bucket. -/
theorem c1_archive_bucket_contract (env : Env) (st : S3State) (bucket : String)
    (hWF : st.WF) (hnb : ¬(bucket = ARCHIVE_BUCKET))
    (hex : controller.bucket_exists env st bucket = true) :
    ∀ r st1, controller.archive_bucket env st bucket none true = .ok (r, st1) →
      r = some true ∧
      controller.bucket_exists env st1 bucket = false ∧
      (∀ n d, lookupObj st bucket n = some d →
        lookupObj st1 ARCHIVE_BUCKET (bucket ++ "/" ++ n) = some d) := by
  intro r st1 h
  have hnab : ¬(ARCHIVE_BUCKET = bucket) := fun he => hnb he.symm
  have hexm : (st.findBucket bucket).isSome = true := by
    rw [controller.bucket_exists_eq] at hex
    exact hex
  obtain ⟨bk1, hbk1⟩ := Option.isSome_iff_exists.mp hexm
  have hbk1mem : bk1 ∈ st.buckets :=
    List.mem_of_find?_eq_some (p := fun x : S3Bucket => x.name == bucket) hbk1
  unfold controller.archive_bucket at h
  rw [hex] at h
  simp only [Bool.not_true, Bool.false_eq_true, if_false] at h
  obtain ⟨a1, h1, h⟩ := except_bind_ok.mp h
  obtain ⟨a2, h2, h⟩ := except_bind_ok.mp h
  obtain ⟨a3, h3, h⟩ := except_bind_ok.mp h
  obtain ⟨a4, h4, h⟩ := except_bind_ok.mp h
  obtain ⟨a5, h5, h⟩ := except_bind_ok.mp h
  simp only [Pure.pure, Except.pure, Except.ok.injEq, Prod.mk.injEq] at h
  obtain ⟨hr, hst1⟩ := h
  subst hst1
  have hA : (a1.findBucket ARCHIVE_BUCKET).isSome = true ∧
      a1.findBucket bucket = st.findBucket bucket := by
    by_cases hbA : controller.bucket_exists env st ARCHIVE_BUCKET = true
    · rw [hbA] at h1
      have ha1 : st = a1 := by simpa [Pure.pure, Except.pure] using h1
      subst ha1
      refine ⟨?_, rfl⟩
      rw [controller.bucket_exists_eq] at hbA
      exact hbA
    · have hbA2 : controller.bucket_exists env st ARCHIVE_BUCKET = false := by
        simpa using hbA
      rw [hbA2] at h1
      simp only [Bool.not_false, if_true] at h1
      obtain ⟨rv, hcr, hpure⟩ := except_bind_ok.mp h1
      obtain ⟨hold, hs⟩ := controller.create_bucket_state hcr
      have ha1 : rv.2 = a1 := by simpa [Pure.pure, Except.pure] using hpure
      rw [← ha1, hs]
      constructor
      · exact bucket_exists_append_self st ARCHIVE_BUCKET
      · rw [findBucket_append_of_some hbk1, hbk1]
  rw [controller.get_bucket_objects_eq] at h2
  obtain ⟨names0, hlist, hpure2⟩ := except_bind_ok.mp h2
  have ha2 : a2 = some names0 := by
    have := hpure2
    simpa [Pure.pure, Except.pure] using this.symm
  unfold minio.get_bucket_objects client.list_objects at hlist
  rw [hA.2, hbk1] at hlist
  have hnames0 : names0 = bk1.objs.map S3Object.name := by
    simpa using hlist.symm
  have ha3 : a3 = names0 := by
    rw [ha2] at h3
    simpa [Pure.pure, Except.pure] using h3.symm
  rw [ha3, hnames0] at h4
  have hnodup : (bk1.objs.map S3Object.name).Nodup := hWF.2 bk1 hbk1mem
  obtain ⟨f1, f2, f3, f4⟩ :=
    archive_fold_inv env bucket hnb (bk1.objs.map S3Object.name) a1 a4 hnodup hA.1 h4
  have hfb4 : a4.findBucket bucket = some ⟨bk1.name, []⟩ := by
    rw [f2, hA.2, hbk1, Option.map_some']
    rw [filter_not_contains_self]
  obtain ⟨rv2, hrm, hp5⟩ := except_bind_ok.mp h5
  rw [controller.remove_bucket_run_empty env a4 bucket bk1.name hfb4] at hrm
  have ha5 : a5 = ⟨a4.buckets.filter (fun x => !(x.name == bucket))⟩ := by
    have hrv2 : rv2 = (true, (⟨a4.buckets.filter (fun x => !(x.name == bucket))⟩ : S3State)) := by
      simpa using hrm.symm
    rw [hrv2] at hp5
    simpa [Pure.pure, Except.pure] using hp5.symm
  subst ha5
  refine ⟨hr.symm, ?_, ?_⟩
  · rw [controller.bucket_exists_eq]
    show (S3State.findBucket ⟨a4.buckets.filter (fun x => !(x.name == bucket))⟩ bucket).isSome =
      false
    rw [findBucket_filter_self]
    rfl
  · intro n d hnd
    have hnd2 : (bk1.findObj n).map S3Object.data = some d := by
      unfold lookupObj at hnd
      rw [hbk1] at hnd
      simpa using hnd
    cases hfo : bk1.findObj n with
    | none => rw [hfo] at hnd2; simp at hnd2
    | some o =>
      rw [hfo] at hnd2
      have hdata : o.data = d := by simpa using hnd2
      have honame : o.name = n := by
        have := List.find?_some (p := fun x : S3Object => x.name == n) hfo
        simpa using this
      have homem : o ∈ bk1.objs :=
        List.mem_of_find?_eq_some (p := fun x : S3Object => x.name == n) hfo
      have hnmem : n ∈ bk1.objs.map S3Object.name := by
        rw [← honame]
        exact List.mem_map_of_mem S3Object.name homem
      have hla1 : lookupObj a1 bucket n = some d := by
        unfold lookupObj
        rw [hA.2, hbk1]
        simp [hfo, hdata]
      show lookupObj ⟨a4.buckets.filter (fun x => !(x.name == bucket))⟩
        ARCHIVE_BUCKET (bucket ++ "/" ++ n) = some d
      unfold lookupObj
      rw [findBucket_filter_ne hnab]
      have := f1 n hnmem
      unfold lookupObj at this hla1
      rw [this, hla1]

/-- Claim C1 counterexample: archiving the archive bucket itself
(`bucket = "archive"`, non-empty) completes with `True`, but the bucket
still exists afterwards (the final `remove_bucket` refuses: the bucket now
holds the `"archive/o"` copy), contradicting the claim's "B itself no longer
exists". -/
theorem c1_archive_bucket_contract_counterexample :
    controller.archive_bucket env0 exArchiveSt "archive" none true =
      .ok (some true, ⟨[⟨"archive", [⟨"archive/o", "d"⟩]⟩]⟩) ∧
    controller.bucket_exists env0 ⟨[⟨"archive", [⟨"archive/o", "d"⟩]⟩]⟩ "archive" = true :=
  ⟨rfl, rfl⟩

/-- Witness for C1 (amended): archiving the concrete tenant bucket moves its
object under `"{bucket}/x"` in the archive bucket and removes the bucket. -/
theorem c1_archive_bucket_contract_witness :
    controller.bucket_exists env0
      ⟨[⟨"archive", [⟨"o", "d"⟩, ⟨"3fa85f64-5717-4562-b3fc-2c963f66afa6/x", "1"⟩]⟩]⟩
      "3fa85f64-5717-4562-b3fc-2c963f66afa6" = false ∧
    lookupObj
      ⟨[⟨"archive", [⟨"o", "d"⟩, ⟨"3fa85f64-5717-4562-b3fc-2c963f66afa6/x", "1"⟩]⟩]⟩
      "archive" "3fa85f64-5717-4562-b3fc-2c963f66afa6/x" = some "1" := by
  have h := c1_archive_bucket_contract env0 exTwoSt
    "3fa85f64-5717-4562-b3fc-2c963f66afa6" (by decide) (by decide) (by rfl) (some true)
    ⟨[⟨"archive", [⟨"o", "d"⟩, ⟨"3fa85f64-5717-4562-b3fc-2c963f66afa6/x", "1"⟩]⟩]⟩
    (by rfl)
  exact ⟨h.2.1, h.2.2 "x" "1" (by rfl)⟩
